import Mathlib

/-!
# Verification of the Nexus projects-service authorization core

Shallow embedding of the route handlers of the Nexus projects service
(`src/routes/projects.routes.ts`, `src/routes/admin.routes.ts`,
`src/routes/student.routes.ts`, `src/routes/collaboration.routes.ts`,
`src/middlewares/adminAuth.ts`, `src/clients/profile.ts`,
`src/utils/websocket.ts`).  The relational store is a record of lists; each
handler is a pure function from the store (plus the authenticated actor's
token payload and resolved scope) to an HTTP status code and the successor
store.  Prisma's convention that a `where` field bound to `undefined` is
dropped from the filter is modelled by `matchOpt`; JavaScript strict
equality against a possibly-`undefined` value is modelled by comparison
with an `Option`.
-/

namespace Nexus

/-- `moderationStatus` enum of the Project model. -/
inductive ModerationStatus
  | PENDING_APPROVAL
  | APPROVED
  | REJECTED
  deriving DecidableEq, Repr

/-- `progressStatus` enum of the Project model. -/
inductive ProgressStatus
  | OPEN
  | IN_PROGRESS
  | COMPLETED
  deriving DecidableEq, Repr

/-- `status` enum of the AppliedProject model. -/
inductive ApplicationStatus
  | PENDING
  | ACCEPTED
  | REJECTED
  deriving DecidableEq, Repr

/-- `status` enum of the ProjectTask model. -/
inductive TaskStatus
  | TODO
  | IN_PROGRESS
  | COMPLETED
  deriving DecidableEq, Repr

/-- The Project row (fields used by the verified handlers; display-only
denormalized fields are omitted). `collegeId` is the tenant id. -/
structure Project where
  id : String
  collegeId : String
  authorId : String
  title : String
  departments : List String
  visibleToAllDepts : Bool
  maxStudents : Nat
  deadline : Option Nat
  moderationStatus : ModerationStatus
  progressStatus : ProgressStatus
  archivedAt : Option Nat
  deriving DecidableEq, Repr

/-- The AppliedProject row. -/
structure Application where
  id : String
  projectId : String
  studentId : String
  status : ApplicationStatus
  message : Option String
  deriving DecidableEq, Repr

/-- The ProjectTask row. -/
structure Task where
  id : String
  projectId : String
  title : String
  assignedToId : Option String
  status : TaskStatus
  deriving DecidableEq, Repr

/-- The relational store. -/
structure DB where
  projects : List Project
  applications : List Application
  tasks : List Task
  deriving DecidableEq, Repr

/-- The scope resolved by `getUserScope` (src/clients/profile.ts):
every field may be absent. -/
structure UserScope where
  collegeId : Option String
  department : Option String
  displayName : Option String
  avatar : Option String
  deriving DecidableEq, Repr

/-- Prisma semantics of an equality filter whose value may be `undefined`:
`{ collegeId: undefined }` is dropped from the `where` clause, so it
matches every row. -/
def matchOpt (o : Option String) (s : String) : Bool :=
  match o with
  | none => true
  | some c => c == s

/-- JavaScript strict equality `s === o` between a present string and a
possibly-`undefined` value (`"x" === undefined` is `false`). -/
def strictEq (o : Option String) (s : String) : Bool :=
  o == some s

/-- `count(applications where projectId = pid and status = ACCEPTED)`. -/
def acceptedCount (db : DB) (pid : String) : Nat :=
  (db.applications.filter
    (fun a => a.projectId == pid && a.status == ApplicationStatus.ACCEPTED)).length

/-- `prisma.appliedProject.findFirst({ where: { projectId, studentId, status: ACCEPTED } })`
is some — the derived membership relation for accepted applicants. -/
def hasAcceptedApp (db : DB) (pid sid : String) : Bool :=
  db.applications.any
    (fun a => a.projectId == pid && a.studentId == sid && a.status == ApplicationStatus.ACCEPTED)

/-- `prisma.appliedProject.findUnique({ where: { projectId_studentId } })` is some. -/
def hasAnyApp (db : DB) (pid sid : String) : Bool :=
  db.applications.any (fun a => a.projectId == pid && a.studentId == sid)

/-- `prisma.project.update({ where: { id }, data })`: replace the row with the
given id by `f` applied to it. -/
def updateProjectRow (db : DB) (pid : String) (f : Project → Project) : DB :=
  { db with projects := db.projects.map (fun p => if p.id == pid then f p else p) }

/-- `prisma.appliedProject.update({ where: { id }, data })`. -/
def updateApplicationRow (db : DB) (aid : String) (f : Application → Application) : DB :=
  { db with applications := db.applications.map (fun a => if a.id == aid then f a else a) }

/-- `prisma.projectTask.update({ where: { id }, data })`. -/
def updateTaskRow (db : DB) (tid : String) (f : Task → Task) : DB :=
  { db with tasks := db.tasks.map (fun t => if t.id == tid then f t else t) }

/-! ## Handlers of `src/routes/projects.routes.ts` -/

/-- The student department-visibility test used at projects.routes.ts:150
and :316: `project.visibleToAllDepts || (department && project.departments.includes(department))`. -/
def deptVisible (department : Option String) (p : Project) : Bool :=
  p.visibleToAllDepts ||
    (match department with
     | some d => p.departments.contains d
     | none => false)

/-- The `where` filter built by `GET /v1/projects`
(projects.routes.ts:41-73), specialized to a request without the optional
`q`/`projectType`/`progressStatus` query filters (they are ANDed
independently and do not interact with the visibility conditions):
`archivedAt: null`, the `collegeId` filter only when the scope has one,
and for students `moderationStatus: APPROVED` plus the department
disjunction (`visibleToAllDepts: true` alone when the scope has no
department). -/
def listProjectsPred (isStudent : Bool) (collegeId department : Option String)
    (p : Project) : Bool :=
  p.archivedAt == none &&
  (match collegeId with
   | none => true
   | some c => p.collegeId == c) &&
  (!isStudent ||
    (p.moderationStatus == ModerationStatus.APPROVED && deptVisible department p))

/-- `GET /v1/projects`: the rows returned by `prisma.project.findMany`
under the filter above (pagination elided). -/
def listProjects (db : DB) (isStudent : Bool) (collegeId department : Option String) :
    List Project :=
  db.projects.filter (listProjectsPred isStudent collegeId department)

/-- `GET /v1/projects/:id` (projects.routes.ts:124-171): `findFirst({ id,
collegeId, archivedAt: null })`, then for students a 404 unless
`moderationStatus == APPROVED` and the department-visibility test passes.
Returns the exposed project, or `none` for the 404 outcome. -/
def getProjectById (db : DB) (roles : List String)
    (collegeId department : Option String) (id : String) : Option Project :=
  match db.projects.find?
      (fun p => p.id == id && matchOpt collegeId p.collegeId && p.archivedAt == none) with
  | none => none
  | some project =>
    if roles.contains "STUDENT" then
      if !(project.moderationStatus == ModerationStatus.APPROVED) then none
      else if !(deptVisible department project) then none
      else some project
    else some project

/-- Body of `PUT /v1/projects/:id` (fields used by the claims). -/
structure UpdateProjectBody where
  title : Option String
  maxStudents : Option Nat
  deriving DecidableEq, Repr

/-- `PUT /v1/projects/:id` (projects.routes.ts:268-282): owner-only update;
`findFirst({ id, collegeId, authorId, archivedAt: null })` else 404. -/
def updateProject (db : DB) (sub : String) (roles : List String)
    (collegeId : Option String) (id : String) (body : UpdateProjectBody) : Nat × DB :=
  if !(roles.contains "FACULTY") then (403, db)
  else
    match db.projects.find?
        (fun p => p.id == id && matchOpt collegeId p.collegeId &&
          p.authorId == sub && p.archivedAt == none) with
    | none => (404, db)
    | some _ =>
      (200, updateProjectRow db id (fun p =>
        { p with
          title := body.title.getD p.title
          maxStudents := body.maxStudents.getD p.maxStudents }))

/-- `DELETE /v1/projects/:id` (projects.routes.ts:285-296): owner-only soft
delete; on success `update({ where: { id }, data: { archivedAt: new Date() } })`. -/
def deleteProject (db : DB) (sub : String) (roles : List String)
    (collegeId : Option String) (id : String) (now : Nat) : Nat × DB :=
  if !(roles.contains "FACULTY") then (403, db)
  else
    match db.projects.find?
        (fun p => p.id == id && matchOpt collegeId p.collegeId &&
          p.authorId == sub && p.archivedAt == none) with
    | none => (404, db)
    | some _ =>
      (200, updateProjectRow db id (fun p => { p with archivedAt := some now }))

/-- `POST /v1/projects/:id/applications` (projects.routes.ts:299-346): the
student apply operation.  Checks, in source order: role STUDENT; scope has
a collegeId (else 400); `findFirst({ id, collegeId, archivedAt: null })`
(else 404); `moderationStatus == APPROVED` (else 403); `progressStatus !=
COMPLETED` (else 400); department visibility (else 403); deadline not
passed (else 400); no existing `(projectId, studentId)` row (else 409).
On success a PENDING row is created.  There is no accepted-count check. -/
def applyToProject (db : DB) (sub : String) (roles : List String)
    (collegeId department : Option String) (id : String)
    (message : Option String) (now : Nat) (newId : String) : Nat × DB :=
  if !(roles.contains "STUDENT") then (403, db)
  else
    match collegeId with
    | none => (400, db)
    | some cid =>
      match db.projects.find?
          (fun p => p.id == id && p.collegeId == cid && p.archivedAt == none) with
      | none => (404, db)
      | some project =>
        if !(project.moderationStatus == ModerationStatus.APPROVED) then (403, db)
        else if project.progressStatus == ProgressStatus.COMPLETED then (400, db)
        else if !(deptVisible department project) then (403, db)
        else if (match project.deadline with
                 | some dl => decide (dl < now)
                 | none => false) then (400, db)
        else if hasAnyApp db id sub then (409, db)
        else
          (200, { db with applications := db.applications ++
            [{ id := newId, projectId := id, studentId := sub,
               status := ApplicationStatus.PENDING, message := message }] })

/-- `PUT /v1/applications/:id/status` (projects.routes.ts:389-413): the
faculty status-update.  404 unless the application exists, its project
exists, `project.collegeId === collegeId` (strict JS equality against the
possibly-undefined scope value) and `project.authorId === payload.sub`;
400 unless the application is PENDING; for an ACCEPTED transition, 400
when `acceptedCount >= project.maxStudents`. -/
def updateApplicationStatus (db : DB) (sub : String) (roles : List String)
    (collegeId : Option String) (appId : String) (newStatus : ApplicationStatus) :
    Nat × DB :=
  if !(roles.contains "FACULTY") then (403, db)
  else
    match db.applications.find? (fun a => a.id == appId) with
    | none => (404, db)
    | some application =>
      match db.projects.find? (fun p => p.id == application.projectId) with
      | none => (404, db)
      | some project =>
        if !(strictEq collegeId project.collegeId) || !(project.authorId == sub) then
          (404, db)
        else if !(application.status == ApplicationStatus.PENDING) then (400, db)
        else if newStatus == ApplicationStatus.ACCEPTED &&
            decide (project.maxStudents ≤ acceptedCount db application.projectId) then
          (400, db)
        else
          (200, updateApplicationRow db appId (fun a => { a with status := newStatus }))

/-- `GET /v1/projects/:id/tasks` (projects.routes.ts:458-470), which is
also the gating pattern of the comments and attachments handlers at
:416-455 and :537-572: `findFirst({ id, collegeId, archivedAt: null })`
(else 404), then membership — author, or an ACCEPTED application —
(else 403). -/
def getProjectTasksPR (db : DB) (sub : String) (collegeId : Option String)
    (id : String) : Nat × List Task :=
  match db.projects.find?
      (fun p => p.id == id && matchOpt collegeId p.collegeId && p.archivedAt == none) with
  | none => (404, [])
  | some project =>
    if project.authorId != sub && !(hasAcceptedApp db id sub) then (403, [])
    else (200, db.tasks.filter (fun t => t.projectId == id))

/-- Body of the task-update requests (`updateTaskSchema` fields used by the
handlers). -/
structure UpdateTaskBody where
  title : Option String
  assignedToId : Option String
  status : Option TaskStatus
  deriving DecidableEq, Repr

/-- `PUT /v1/tasks/:taskId` (projects.routes.ts:488-520).  404 unless the
task and its project exist, `project.collegeId === collegeId` and the
project is not archived.  The owning faculty may set any field (with an
accepted-member check on `assignedToId`).  A student may only set
`status` on a task assigned to them: if `body.status` is absent, or
`body.title` or `body.assignedToId` is present, the request is a 403.
Everyone else gets 403. -/
def updateTaskPR (db : DB) (sub : String) (roles : List String)
    (collegeId : Option String) (taskId : String) (body : UpdateTaskBody) : Nat × DB :=
  match db.tasks.find? (fun t => t.id == taskId) with
  | none => (404, db)
  | some task =>
    match db.projects.find? (fun p => p.id == task.projectId) with
    | none => (404, db)
    | some project =>
      if !(strictEq collegeId project.collegeId) || project.archivedAt.isSome then
        (404, db)
      else if roles.contains "FACULTY" && project.authorId == sub then
        if (match body.assignedToId with
            | some a => !(hasAcceptedApp db task.projectId a)
            | none => false) then (400, db)
        else
          (200, updateTaskRow db taskId (fun t =>
            { t with
              title := body.title.getD t.title
              assignedToId := (match body.assignedToId with
                               | some a => some a
                               | none => t.assignedToId)
              status := body.status.getD t.status }))
      else if roles.contains "STUDENT" && task.assignedToId == some sub then
        if body.status == none || !(body.title == none) || !(body.assignedToId == none) then
          (403, db)
        else
          (200, updateTaskRow db taskId (fun t =>
            { t with status := body.status.getD t.status }))
      else (403, db)

/-! ## Handlers of `src/routes/student.routes.ts` -/

/-- Modelled from the spec: `canAccessProject` from
`src/middlewares/userAuth.ts` is not among the provided sources.  Per
spec section 4.2 a student can access a project iff the tenant matches
and the project is department-visible to them (`visibleToAllDepts` or
the student's department is among the project's departments). -/
def canAccessProject (collegeId department : Option String) (p : Project) : Bool :=
  strictEq collegeId p.collegeId && deptVisible department p

/-- `POST /v1/projects/:id/applications` from student.routes.ts (the
studentRoutes variant).  Checks, in source order: role STUDENT;
`findUnique({ id })` with the accepted-application count (else 404);
`moderationStatus == APPROVED` and `progressStatus == OPEN` (else 400);
accepted count strictly below `maxStudents` (else 400); `canAccessProject`
(else 403); no existing `(projectId, studentId)` row (else **400**, found
via `findFirst`).  On success a PENDING row is created (201).  There is
no deadline check and no `archivedAt` check. -/
def applyToProjectStudent (db : DB) (sub : String) (roles : List String)
    (collegeId department : Option String) (projectId : String)
    (message : String) (newId : String) : Nat × DB :=
  if !(roles.contains "STUDENT") then (403, db)
  else
    match db.projects.find? (fun p => p.id == projectId) with
    | none => (404, db)
    | some project =>
      if !(project.moderationStatus == ModerationStatus.APPROVED) ||
          !(project.progressStatus == ProgressStatus.OPEN) then (400, db)
      else if decide (project.maxStudents ≤ acceptedCount db projectId) then (400, db)
      else if !(canAccessProject collegeId department project) then (403, db)
      else if hasAnyApp db projectId sub then (400, db)
      else
        (201, { db with applications := db.applications ++
          [{ id := newId, projectId := projectId, studentId := sub,
             status := ApplicationStatus.PENDING, message := some message }] })

/-- `DELETE /v1/applications/:id` from student.routes.ts:266-339 (the
withdraw operation).  404 when the application does not exist; 403 when
the actor is not the owning student; **400** when the application is not
PENDING; on success the row is deleted. -/
def withdrawApplication (db : DB) (sub : String) (roles : List String)
    (appId : String) : Nat × DB :=
  if !(roles.contains "STUDENT") then (403, db)
  else
    match db.applications.find? (fun a => a.id == appId) with
    | none => (404, db)
    | some application =>
      if !(application.studentId == sub) then (403, db)
      else if !(application.status == ApplicationStatus.PENDING) then (400, db)
      else
        (200, { db with applications := db.applications.filter (fun a => !(a.id == appId)) })

/-! ## Handlers of `src/routes/collaboration.routes.ts` -/

/-- `GET /v1/projects/:id/tasks` from collaboration.routes.ts:9-73.
`findUnique({ id })` — no tenant filter and **no `archivedAt` filter** —
then membership (author or accepted applicant) else 403.  The actor-role
gate `requireFacultyOrStudent` (middleware not among the sources) is
modelled from the spec as requiring the FACULTY or STUDENT role. -/
def getProjectTasksCollab (db : DB) (sub : String) (roles : List String)
    (projectId : String) : Nat × List Task :=
  if !(roles.contains "FACULTY" || roles.contains "STUDENT") then (403, [])
  else
    match db.projects.find? (fun p => p.id == projectId) with
    | none => (404, [])
    | some project =>
      if !(project.authorId == sub) && !(hasAcceptedApp db projectId sub) then (403, [])
      else (200, db.tasks.filter (fun t => t.projectId == projectId))

/-- `PUT /v1/tasks/:id` from collaboration.routes.ts:172-270.  404 when
the task does not exist; 403 unless the actor is the project author or an
accepted applicant; otherwise **every supplied field** (`title`,
`assignedToId`, `status`) is written — there is no assignee restriction,
no status-only restriction, no tenant filter and no `archivedAt` check. -/
def updateTaskCollab (db : DB) (sub : String) (roles : List String)
    (taskId : String) (body : UpdateTaskBody) : Nat × DB :=
  if !(roles.contains "FACULTY" || roles.contains "STUDENT") then (403, db)
  else
    match db.tasks.find? (fun t => t.id == taskId) with
    | none => (404, db)
    | some task =>
      match db.projects.find? (fun p => p.id == task.projectId) with
      | none => (404, db)
      | some project =>
        if !(project.authorId == sub) && !(hasAcceptedApp db task.projectId sub) then
          (403, db)
        else
          (200, updateTaskRow db taskId (fun t =>
            { t with
              title := body.title.getD t.title
              assignedToId := (match body.assignedToId with
                               | some a => some a
                               | none => t.assignedToId)
              status := body.status.getD t.status }))

/-! ## `src/middlewares/adminAuth.ts` and `src/routes/admin.routes.ts` -/

/-- The payload produced by `requireHeadAdmin`. -/
structure AdminAuthPayload where
  sub : String
  roles : List String
  collegeId : Option String
  deriving DecidableEq, Repr

/-- `canAccessCollege` (adminAuth.ts:42-55): SUPER_ADMIN may access any
college; HEAD_ADMIN may access a given target college only when it equals
their own `collegeId` (and anything when no target is given); everyone
else is denied. -/
def canAccessCollege (admin : AdminAuthPayload) (targetCollegeId : Option String) : Bool :=
  if admin.roles.contains "SUPER_ADMIN" then true
  else if admin.roles.contains "HEAD_ADMIN" then
    match targetCollegeId with
    | none => true
    | some t => admin.collegeId == some t
  else false

/-- `getCollegeFilter` (adminAuth.ts:62-72): `undefined` (no filter) for
SUPER_ADMIN, the admin's own `collegeId` for HEAD_ADMIN — which is itself
`undefined` when their scope lacks one. -/
def getCollegeFilter (admin : AdminAuthPayload) : Option String :=
  if admin.roles.contains "SUPER_ADMIN" then none
  else if admin.roles.contains "HEAD_ADMIN" then admin.collegeId
  else none

/-- The `whereClause` of `GET /v1/admin/projects` (admin.routes.ts:209-213)
specialized to a request without the optional search/status/date filters:
`whereClause.collegeId = collegeFilter` is set only `if (collegeFilter)`.
The same clause drives the stats aggregation of that route and of
`GET /v1/admin/projects/stats`. -/
def adminProjectsPred (collegeFilter : Option String) (p : Project) : Bool :=
  match collegeFilter with
  | none => true
  | some c => p.collegeId == c

/-- `GET /v1/admin/projects`: rows returned under the clause above
(pagination elided). -/
def adminListProjects (db : DB) (admin : AdminAuthPayload) : List Project :=
  db.projects.filter (adminProjectsPred (getCollegeFilter admin))

/-- `GET /v1/admin/applications` (admin.routes.ts:875-877): when a college
filter is present the clause is `{ project: { collegeId } }`, a join to the
application's project. -/
def adminListApplications (db : DB) (admin : AdminAuthPayload) : List Application :=
  db.applications.filter (fun a =>
    match getCollegeFilter admin with
    | none => true
    | some c => db.projects.any (fun p => p.id == a.projectId && p.collegeId == c))

/-- `GET /v1/admin/projects/:id` (admin.routes.ts:370-436): `findUnique`
(else 404) then `canAccessCollege` on the project's college (else 403). -/
def adminGetProjectDetails (db : DB) (admin : AdminAuthPayload) (id : String) :
    Nat × Option Project :=
  match db.projects.find? (fun p => p.id == id) with
  | none => (404, none)
  | some project =>
    if !(canAccessCollege admin (some project.collegeId)) then (403, none)
    else (200, some project)

/-- Moderation actions of `PATCH /v1/admin/projects/:id/moderate`. -/
inductive AdminAction
  | APPROVE
  | REJECT
  | ARCHIVE
  | REOPEN
  deriving DecidableEq, Repr

/-- `PATCH /v1/admin/projects/:id/moderate` (admin.routes.ts:439-541):
404 when absent, 403 via `canAccessCollege`, then the switch on the
action plus the optional manual `moderationStatus`/`progressStatus`
overrides. -/
def moderateProject (db : DB) (admin : AdminAuthPayload) (id : String)
    (action : AdminAction) (moderationOverride : Option ModerationStatus)
    (progressOverride : Option ProgressStatus) (now : Nat) : Nat × DB :=
  match db.projects.find? (fun p => p.id == id) with
  | none => (404, db)
  | some currentProject =>
    if !(canAccessCollege admin (some currentProject.collegeId)) then (403, db)
    else
      let base :=
        match action with
        | AdminAction.APPROVE =>
          { currentProject with moderationStatus := ModerationStatus.APPROVED }
        | AdminAction.REJECT =>
          { currentProject with moderationStatus := ModerationStatus.REJECTED }
        | AdminAction.ARCHIVE => { currentProject with archivedAt := some now }
        | AdminAction.REOPEN =>
          { currentProject with
            archivedAt := none
            moderationStatus := ModerationStatus.PENDING_APPROVAL }
      let final :=
        { base with
          moderationStatus := moderationOverride.getD base.moderationStatus
          progressStatus := progressOverride.getD base.progressStatus }
      (200, updateProjectRow db id (fun _ => final))

/-- `PATCH /v1/admin/projects/bulk-moderate` (admin.routes.ts:544-635):
load the targeted projects; 404 when none exist; 403 when **any** target
is outside the admin's college scope; otherwise `updateMany` applies the
action to every targeted row. -/
def bulkModerate (db : DB) (admin : AdminAuthPayload) (projectIds : List String)
    (action : AdminAction) (now : Nat) : Nat × DB :=
  let projects := db.projects.filter (fun p => projectIds.contains p.id)
  if projects.isEmpty then (404, db)
  else if projects.any (fun p => !(canAccessCollege admin (some p.collegeId))) then
    (403, db)
  else
    (200, { db with projects := db.projects.map (fun p =>
      if projectIds.contains p.id then
        match action with
        | AdminAction.APPROVE => { p with moderationStatus := ModerationStatus.APPROVED }
        | AdminAction.REJECT => { p with moderationStatus := ModerationStatus.REJECTED }
        | AdminAction.ARCHIVE => { p with archivedAt := some now }
        | AdminAction.REOPEN =>
          { p with
            archivedAt := none
            moderationStatus := ModerationStatus.PENDING_APPROVAL }
      else p) })

/-- `PATCH /v1/admin/applications/:id/status` (admin.routes.ts:948-1037):
404 when the application is absent, 403 via `canAccessCollege` on the
project's college, then the status is written unconditionally — there is
**no PENDING guard and no capacity check**. -/
def adminUpdateApplicationStatus (db : DB) (admin : AdminAuthPayload)
    (appId : String) (newStatus : ApplicationStatus) : Nat × DB :=
  match db.applications.find? (fun a => a.id == appId) with
  | none => (404, db)
  | some application =>
    match db.projects.find? (fun p => p.id == application.projectId) with
    | none => (404, db)
    | some project =>
      if !(canAccessCollege admin (some project.collegeId)) then (403, db)
      else (200, updateApplicationRow db appId (fun a => { a with status := newStatus }))

/-! ## `src/utils/websocket.ts` -/

/-- The socket.io rooms of websocket.ts, written abstractly: `collegeRoom c`
is the string room `projects:c`, `deptRoom c d` is `projects:c:d`, and
`facultyApplications u` is `faculty:u:applications`. -/
inductive Room
  | collegeRoom (collegeId : String)
  | deptRoom (collegeId : String) (department : String)
  | facultyApplications (userId : String)
  deriving DecidableEq, Repr

/-- An authenticated real-time connection (`socket.data` set by the
authentication middleware of `initializeWebSocket`). -/
structure Connection where
  userId : String
  collegeId : Option String
  department : Option String
  roles : List String
  deriving DecidableEq, Repr

/-- The rooms a connection joins on connect (websocket.ts:56-82): its
college room when `collegeId` is known, its college+department room when
both are known, and its per-user application room when it holds the
FACULTY role (and has a `collegeId`). -/
def joinedRooms (c : Connection) : List Room :=
  (match c.collegeId with
   | some cid => [Room.collegeRoom cid]
   | none => []) ++
  (match c.collegeId, c.department with
   | some cid, some d => [Room.deptRoom cid d]
   | _, _ => []) ++
  (if c.roles.contains "FACULTY" && c.collegeId.isSome then
    [Room.facultyApplications c.userId]
  else [])

/-- The rooms `emitProjectUpdate` (websocket.ts:91-107) targets: always the
event's college room, plus — when the project is **not** visible to all
departments — each listed department's room. -/
def emitProjectUpdateRooms (collegeId : String) (departments : List String)
    (visibleToAllDepts : Bool) : List Room :=
  [Room.collegeRoom collegeId] ++
  (if !visibleToAllDepts && decide (0 < departments.length) then
    departments.map (fun d => Room.deptRoom collegeId d)
  else [])

/-- A connection receives a project event iff it joined one of the emitted
rooms. -/
def deliveredProjectUpdate (c : Connection) (collegeId : String)
    (departments : List String) (visibleToAllDepts : Bool) : Bool :=
  (emitProjectUpdateRooms collegeId departments visibleToAllDepts).any
    (fun r => decide (r ∈ joinedRooms c))

/-! ## `getUserScope` (src/clients/profile.ts) -/

/-- Outcome of the `getUserIdentity` auth-service call. -/
structure Identity where
  collegeId : Option String
  department : Option String
  displayName : Option String
  avatarUrl : Option String
  deriving DecidableEq, Repr

/-- The profile-service `/v1/profile/me` payload. -/
structure ProfileData where
  collegeId : Option String
  department : Option String
  avatar : Option String
  deriving DecidableEq, Repr

/-- The HTTP response of the profile-service fetch: `ok` is `res.ok`. -/
structure ProfileResponse where
  ok : Bool
  profile : Option ProfileData
  deriving DecidableEq, Repr

/-- The environment a single `getUserScope` call runs against: the cache
lookup result (a cache **error** is logged and treated as a miss, so it is
already folded into `none`), the scope fields embedded in the JWT payload,
the presence of the Authorization header, the outcome of the
`getUserIdentity` call, and the outcome of the profile-service fetch —
`Except.error` meaning the promise rejected (network error), as opposed to
a response with `ok = false`. -/
structure ScopeEnv where
  cached : Option UserScope
  jwtCollegeId : Option String
  jwtDepartment : Option String
  jwtDisplayName : Option String
  jwtName : Option String
  jwtAvatar : Option String
  authHeader : Option String
  identityResult : Except Unit Identity
  profileFetch : Except Unit ProfileResponse
  deriving Repr

/-- The failures `getUserScope` can surface to its caller. -/
inductive ScopeError
  | missingAuthHeader
  | dependencyFailure
  deriving DecidableEq, Repr

/-- `getUserScope` (profile.ts:421-489).  Tier 1: cache hit.  Tier 2: JWT
scope, used only when **both** `collegeId` and `department` are present.
Hard failure when the Authorization header is absent for the fallback
tiers.  Tier 3: `getUserIdentity`; its exception is caught.  Tier 4:
profile-service fetch inside the tier-3 catch — a *rejection* of the fetch
itself is **not** caught and propagates, while a response with `ok = false`
yields the minimal scope `{ displayName: payload.name ?? payload.displayName }`. -/
def getUserScope (env : ScopeEnv) : Except ScopeError UserScope :=
  match env.cached with
  | some s => Except.ok s
  | none =>
    if env.jwtCollegeId.isSome && env.jwtDepartment.isSome then
      Except.ok
        { collegeId := env.jwtCollegeId
          department := env.jwtDepartment
          displayName := env.jwtDisplayName
          avatar := env.jwtAvatar }
    else
      match env.authHeader with
      | none => Except.error ScopeError.missingAuthHeader
      | some _ =>
        match env.identityResult with
        | Except.ok idn =>
          Except.ok
            { collegeId := idn.collegeId
              department := idn.department
              displayName := idn.displayName
              avatar := idn.avatarUrl }
        | Except.error _ =>
          match env.profileFetch with
          | Except.error _ => Except.error ScopeError.dependencyFailure
          | Except.ok res =>
            if !res.ok then
              Except.ok
                { collegeId := none
                  department := none
                  displayName := (match env.jwtName with
                                  | some n => some n
                                  | none => env.jwtDisplayName)
                  avatar := none }
            else
              Except.ok
                { collegeId := (res.profile.bind (fun pr => pr.collegeId))
                  department := (res.profile.bind (fun pr => pr.department))
                  avatar := (res.profile.bind (fun pr => pr.avatar))
                  displayName := (match env.jwtName with
                                  | some n => some n
                                  | none => env.jwtDisplayName) }

/-! ## Spec-side definition for the visibility refinement claim -/

/-- Written from the spec's words (section 8): `canView(S,P) ==
(P.tenantId==S.tenantId AND P.moderationStatus==APPROVED AND
P.archivedAt==null AND (P.visibleToAllDepts OR S.department ∈
P.departments))`, for comparison with the handlers embedded above. -/
def canViewSpec (sCollegeId sDepartment : Option String) (p : Project) : Bool :=
  sCollegeId == some p.collegeId &&
  p.moderationStatus == ModerationStatus.APPROVED &&
  p.archivedAt == none &&
  (p.visibleToAllDepts ||
    (match sDepartment with
     | some d => p.departments.contains d
     | none => false))

/-! ## C6: audience of a department-restricted project event -/

/-- A tenant-T1, dept-EE student connection, as in the spec scenario. -/
def connEE : Connection :=
  { userId := "studentB", collegeId := some "T1", department := some "EE",
    roles := ["STUDENT"] }

/-- C6 counterexample: for the CS-only tenant-T1 project event, the
tenant-T1 dept-EE connection **does** receive the event (it joined the
tenant room `projects:T1`, and `emitProjectUpdate` always emits to the
tenant room), contradicting the claim that it is not delivered. -/
theorem project_event_audience_cex :
    deliveredProjectUpdate connEE "T1" ["CS"] false = true ∧
    connEE.collegeId = some "T1" ∧ connEE.department = some "EE" := by
  decide

/-- A connection joins a given college room iff it is its own. -/
theorem mem_joinedRooms_collegeRoom (c : Connection) (x : String) :
    Room.collegeRoom x ∈ joinedRooms c ↔ c.collegeId = some x := by
  unfold joinedRooms
  rcases hc : c.collegeId with _ | cc <;>
    rcases hd : c.department with _ | d <;>
      by_cases hfac : c.roles.contains "FACULTY" <;>
        simp [hc, hd, hfac, eq_comm]

/-- A connection joins a given department room iff both its college and
department match. -/
theorem mem_joinedRooms_deptRoom (c : Connection) (x d0 : String) :
    Room.deptRoom x d0 ∈ joinedRooms c ↔
      (c.collegeId = some x ∧ c.department = some d0) := by
  unfold joinedRooms
  rcases hc : c.collegeId with _ | cc <;>
    rcases hd : c.department with _ | d <;>
      by_cases hfac : c.roles.contains "FACULTY" <;>
        simp [hc, hd, hfac, eq_comm]

/-- C6 amended: the audience of a project event is exactly the connections
of the event's own tenant — a department-restricted project event is
delivered to every same-tenant connection (including those of departments
not listed, via the tenant room) and to no connection of another tenant
(or lacking a tenant). -/
theorem project_event_audience_amended (c : Connection) (cid : String)
    (deps : List String) (vis : Bool) :
    deliveredProjectUpdate c cid deps vis = true ↔ c.collegeId = some cid := by
  unfold deliveredProjectUpdate emitProjectUpdateRooms
  rw [List.any_eq_true]
  constructor
  · rintro ⟨r, hr, hmem⟩
    simp only [decide_eq_true_eq] at hmem
    rw [List.mem_append] at hr
    rcases hr with hr | hr
    · rw [List.mem_singleton] at hr
      subst hr
      exact (mem_joinedRooms_collegeRoom c cid).mp hmem
    · rcases List.mem_ite_nil_right.mp hr with ⟨-, hdr⟩
      rcases List.mem_map.mp hdr with ⟨d0, -, rfl⟩
      exact ((mem_joinedRooms_deptRoom c cid d0).mp hmem).1
  · intro h
    exact ⟨Room.collegeRoom cid, by simp,
      by simpa using (mem_joinedRooms_collegeRoom c cid).mpr h⟩

/-- C6 witness: the amended audience rule instantiated for the spec
scenario's tenant-T1 dept-CS connection: it receives the event. -/
theorem project_event_audience_witness :
    deliveredProjectUpdate
      { userId := "studentA", collegeId := some "T1", department := some "CS",
        roles := ["STUDENT"] } "T1" ["CS"] false = true :=
  (project_event_audience_amended
    { userId := "studentA", collegeId := some "T1", department := some "CS",
      roles := ["STUDENT"] } "T1" ["CS"] false).mpr rfl

/-! ## C7: identity-resolution fallback behaviour -/

/-- An environment where the token scope is incomplete, the identity
lookup fails, and the profile-service fetch itself rejects (network
error). -/
def scopeEnvNetFail : ScopeEnv :=
  { cached := none
    jwtCollegeId := none
    jwtDepartment := some "CS"
    jwtDisplayName := some "Jane"
    jwtName := some "Jane"
    jwtAvatar := none
    authHeader := some "Bearer tok"
    identityResult := Except.error ()
    profileFetch := Except.error () }

/-- C7 counterexample: with the Authorization header present, an
incomplete token scope, a failed identity lookup and a *rejected*
profile-service fetch, `getUserScope` raises (the rejection is outside
the `try`), instead of returning the minimal display-name scope the
claim promises. -/
theorem scope_fallback_cex :
    getUserScope scopeEnvNetFail = Except.error ScopeError.dependencyFailure ∧
    scopeEnvNetFail.authHeader.isSome = true := by
  exact ⟨rfl, rfl⟩

/-- C7 amended: the minimal display-name-only scope is returned when the
profile service *responds* with an unsuccessful status; the only hard
failures of `getUserScope` are a missing Authorization header on the
fallback tiers and a rejection (network-level failure) of the
profile-service fetch itself, which is not caught. -/
theorem scope_fallback_amended :
    (∀ env : ScopeEnv, ∀ r : ProfileResponse,
      env.cached = none →
      (env.jwtCollegeId.isSome && env.jwtDepartment.isSome) = false →
      env.authHeader.isSome = true →
      env.identityResult = Except.error () →
      env.profileFetch = Except.ok r →
      r.ok = false →
      getUserScope env = Except.ok
        { collegeId := none
          department := none
          displayName := (match env.jwtName with
                          | some n => some n
                          | none => env.jwtDisplayName)
          avatar := none }) ∧
    (∀ env : ScopeEnv, ∀ e : ScopeError,
      getUserScope env = Except.error e →
      (e = ScopeError.missingAuthHeader ∧ env.authHeader = none) ∨
      (e = ScopeError.dependencyFailure ∧ env.profileFetch = Except.error ())) := by
  constructor
  · intro env r hc hjwt hauth hid hpf hok
    unfold getUserScope
    rw [hc]
    rw [Bool.and_eq_false_iff] at hjwt
    rcases hah : env.authHeader with _ | a
    · rw [hah] at hauth; simp at hauth
    · rcases hjwt with hjwt | hjwt <;>
        simp [hjwt, hah, hid, hpf, hok]
  · intro env e h
    unfold getUserScope at h
    rcases hc : env.cached with _ | s
    · rw [hc] at h
      by_cases hjwt : (env.jwtCollegeId.isSome && env.jwtDepartment.isSome) = true
      · rw [if_pos hjwt] at h
        exact absurd h (by simp)
      · rw [if_neg hjwt] at h
        rcases hah : env.authHeader with _ | a
        · rw [hah] at h
          left
          refine ⟨?_, rfl⟩
          injection h with h
          exact h.symm
        · rw [hah] at h
          rcases hid : env.identityResult with u | idn
          · rw [hid] at h
            rcases hpf : env.profileFetch with v | res
            · rw [hpf] at h
              right
              refine ⟨?_, rfl⟩
              injection h with h
              exact h.symm
            · rw [hpf] at h
              by_cases hok : (!res.ok) = true <;> simp [hok] at h
          · rw [hid] at h
            exact absurd h (by simp)
    · rw [hc] at h
      exact absurd h (by simp)

/-- C7 witness: the amended fallback rule at a concrete environment whose
profile service responds 404: the minimal scope is returned. -/
theorem scope_fallback_amended_witness :
    getUserScope { scopeEnvNetFail with
      profileFetch := Except.ok { ok := false, profile := none } } =
    Except.ok
      { collegeId := none, department := none,
        displayName := some "Jane", avatar := none } := by
  exact scope_fallback_amended.1
    { scopeEnvNetFail with profileFetch := Except.ok { ok := false, profile := none } }
    { ok := false, profile := none } rfl rfl rfl rfl rfl rfl

/-! ## C2: student visibility of projects -/

/-- `find?` under duplicate-free row ids returns the unique row matching a
key-determined predicate. -/
theorem find?_of_nodup_ids {l : List Project} (hN : (l.map Project.id).Nodup)
    {pred : Project → Bool} {p : Project} (hp : p ∈ l) (hpred : pred p = true)
    (hkey : ∀ q : Project, pred q = true → q.id = p.id) :
    l.find? pred = some p := by
  induction l with
  | nil => cases hp
  | cons h tl ih =>
    rw [List.map_cons] at hN
    have hN2 := List.nodup_cons.mp hN
    by_cases hh : pred h = true
    · have hid : h.id = p.id := hkey h hh
      rcases List.mem_cons.mp hp with rfl | hp2
      · simp [List.find?_cons, hh]
      · exact absurd (hid ▸ List.mem_map_of_mem Project.id hp2) hN2.1
    · rw [Bool.not_eq_true] at hh
      rw [List.find?_cons, hh]
      rcases List.mem_cons.mp hp with rfl | hp2
      · rw [hpred] at hh; cases hh
      · exact ih hN2.2 hp2

/-- The student branch of the listing filter coincides with the spec's
`canView` formula once the scope carries a tenant id. -/
theorem listPred_eq_canViewSpec (t : String) (dept : Option String) (p : Project) :
    listProjectsPred true (some t) dept p = true ↔
      canViewSpec (some t) dept p = true := by
  unfold listProjectsPred canViewSpec deptVisible
  simp only [Bool.and_eq_true, Bool.or_eq_true, beq_iff_eq, Option.some.injEq,
    Bool.not_eq_true]
  constructor
  · rintro ⟨⟨ha, hcol⟩, h3⟩
    rcases h3 with h3 | h3
    · cases h3
    · exact ⟨⟨⟨hcol.symm, h3.1⟩, ha⟩, h3.2⟩
  · rintro ⟨⟨⟨hcol, hmod⟩, ha⟩, hvis⟩
    exact ⟨⟨ha, hcol.symm⟩, Or.inr ⟨hmod, hvis⟩⟩

/-- A same-tenant, APPROVED, all-departments-visible, unarchived project in
another tenant, read by a student whose resolved scope carries no
`collegeId` (and no department). -/
def pForeign : Project :=
  { id := "p2", collegeId := "T2", authorId := "F2", title := "Open project",
    departments := [], visibleToAllDepts := true, maxStudents := 3,
    deadline := none, moderationStatus := ModerationStatus.APPROVED,
    progressStatus := ProgressStatus.OPEN, archivedAt := none }

/-- The store holding only `pForeign`. -/
def dbScopeless : DB := { projects := [pForeign], applications := [], tasks := [] }

/-- C2 counterexample: a student whose scope resolved without a
`collegeId` (the handlers drop the tenant filter when it is undefined) is
exposed to a project of tenant T2 by both the single read and the listing,
although the spec formula `canView` — whose tenant-equality conjunct
cannot hold for a scope without a tenant — says the project must be
hidden. -/
theorem student_visibility_cex :
    getProjectById dbScopeless ["STUDENT"] none none "p2" = some pForeign ∧
    canViewSpec none none pForeign = false ∧
    pForeign ∈ listProjects dbScopeless true none none := by
  refine ⟨rfl, rfl, ?_⟩
  decide

/-- C2 amended: for a student whose resolved scope carries a tenant id
`t`, both the single read (`GET /v1/projects/:id`) and the listing row
filter (`GET /v1/projects`) expose exactly the projects satisfying the
spec's `canView` formula; when the scope has no tenant id the tenant
conjunct is dropped by the handlers and cross-tenant rows are exposed. -/
theorem student_visibility_amended (db : DB) (dept : Option String) (t id : String)
    (p : Project) (hN : (db.projects.map Project.id).Nodup) :
    (getProjectById db ["STUDENT"] (some t) dept id = some p ↔
      p ∈ db.projects ∧ p.id = id ∧ canViewSpec (some t) dept p = true) ∧
    (∀ q : Project, q ∈ listProjects db true (some t) dept ↔
      q ∈ db.projects ∧ canViewSpec (some t) dept q = true) := by
  constructor
  · constructor
    · intro h
      unfold getProjectById at h
      rcases hf : db.projects.find?
          (fun q => q.id == id && matchOpt (some t) q.collegeId &&
            q.archivedAt == none) with _ | pr
      · rw [hf] at h; cases h
      · rw [hf] at h
        have hmem := List.mem_of_find?_eq_some hf
        have hpred := List.find?_some hf
        simp only [Bool.and_eq_true, beq_iff_eq] at hpred
        simp only [List.contains_cons, beq_self_eq_true, Bool.true_or,
          if_true] at h
        by_cases hmod : (pr.moderationStatus == ModerationStatus.APPROVED) = true
        · rw [hmod] at h
          simp only [Bool.not_true, if_false] at h
          by_cases hvis : deptVisible dept pr = true
          · rw [hvis] at h
            simp only [Bool.not_true, if_false] at h
            injection h with h
            rw [h] at hmem hpred hmod hvis
            refine ⟨hmem, hpred.1.1, ?_⟩
            unfold canViewSpec
            rw [beq_iff_eq] at hmod
            have hcol : (matchOpt (some t) p.collegeId) = (t == p.collegeId) := rfl
            rw [hcol] at hpred
            simp only [Bool.and_eq_true, beq_iff_eq, Option.some.injEq]
            refine ⟨⟨⟨beq_iff_eq.mp hpred.1.2, hmod⟩, ?_⟩, ?_⟩
            · simpa using hpred.2
            · unfold deptVisible at hvis
              simpa using hvis
          · rw [Bool.not_eq_true] at hvis
            rw [hvis] at h
            simp at h
        · rw [Bool.not_eq_true] at hmod
          rw [hmod] at h
          simp at h
    · rintro ⟨hmem, hid, hcv⟩
      unfold canViewSpec at hcv
      simp only [Bool.and_eq_true, beq_iff_eq, Option.some.injEq] at hcv
      have hfind : db.projects.find?
          (fun q => q.id == id && matchOpt (some t) q.collegeId &&
            q.archivedAt == none) = some p := by
        apply find?_of_nodup_ids hN hmem
        · have hcol : (matchOpt (some t) p.collegeId) = (t == p.collegeId) := rfl
          simp only [Bool.and_eq_true, beq_iff_eq, hcol]
          exact ⟨⟨hid, hcv.1.1.1⟩, by simp [hcv.1.2]⟩
        · intro q hq
          simp only [Bool.and_eq_true, beq_iff_eq] at hq
          rw [hq.1.1, hid]
      unfold getProjectById
      rw [hfind]
      simp only [List.contains_cons, beq_self_eq_true, Bool.true_or, if_true]
      rw [(by rw [beq_iff_eq]; exact hcv.1.1.2 :
        (p.moderationStatus == ModerationStatus.APPROVED) = true)]
      have hvis : deptVisible dept p = true := by
        unfold deptVisible
        simpa using hcv.2
      rw [hvis]
      simp
  · intro q
    unfold listProjects
    rw [List.mem_filter]
    constructor
    · rintro ⟨hm, hpred⟩
      exact ⟨hm, (listPred_eq_canViewSpec t dept q).mp hpred⟩
    · rintro ⟨hm, hcv⟩
      exact ⟨hm, (listPred_eq_canViewSpec t dept q).mpr hcv⟩

/-- A CS-only, approved, tenant-T1 project (the spec's section-8 scenario
project). -/
def pCS : Project :=
  { id := "p1", collegeId := "T1", authorId := "F", title := "CS project",
    departments := ["CS"], visibleToAllDepts := false, maxStudents := 1,
    deadline := none, moderationStatus := ModerationStatus.APPROVED,
    progressStatus := ProgressStatus.OPEN, archivedAt := none }

/-- The store holding only `pCS`. -/
def dbCS : DB := { projects := [pCS], applications := [], tasks := [] }

/-- C2 witness: the amended equivalence applied to a concrete store — the
tenant-T1 CS student sees the CS-only approved T1 project through the
single read. -/
theorem student_visibility_amended_witness :
    getProjectById dbCS ["STUDENT"] (some "T1") (some "CS") "p1" = some pCS := by
  exact (student_visibility_amended dbCS (some "CS") "T1" "p1" pCS
    (by decide)).1.mpr ⟨by decide, rfl, by decide⟩

/-! ## C1: the accepted-applications capacity invariant -/

/-- `countAcc l pid` is `acceptedCount` at the list level. -/
def countAcc (l : List Application) (pid : String) : Nat :=
  (l.filter (fun a => a.projectId == pid && a.status == ApplicationStatus.ACCEPTED)).length

theorem acceptedCount_eq_countAcc (db : DB) (pid : String) :
    acceptedCount db pid = countAcc db.applications pid := rfl

/-- The row function applied by the status-update handlers:
`update({ where: { id: i }, data: { status: s } })`. -/
def updStatus (i : String) (s : ApplicationStatus) : Application → Application :=
  fun a => if a.id == i then { a with status := s } else a

theorem updStatus_of_id (i : String) (s : ApplicationStatus) (a : Application)
    (h : (a.id == i) = true) : updStatus i s a = { a with status := s } := by
  unfold updStatus; rw [h]; simp

theorem updStatus_of_ne (i : String) (s : ApplicationStatus) (a : Application)
    (h : (a.id == i) = false) : updStatus i s a = a := by
  unfold updStatus; rw [h]; simp

/-- Appending a non-ACCEPTED row never changes the accepted count. -/
theorem countAcc_append_nonaccepted (l : List Application) (x : Application) (pid : String)
    (hx : (x.status == ApplicationStatus.ACCEPTED) = false) :
    countAcc (l ++ [x]) pid = countAcc l pid := by
  unfold countAcc
  rw [List.filter_append]
  simp [hx]

/-- Deleting rows never increases the accepted count. -/
theorem countAcc_filter_le (l : List Application) (q : Application → Bool) (pid : String) :
    countAcc (l.filter q) pid ≤ countAcc l pid := by
  unfold countAcc
  exact List.Sublist.length_le (List.Sublist.filter _ (List.filter_sublist l))

/-- Writing a non-ACCEPTED status never increases the accepted count. -/
theorem countAcc_map_nonaccept_le (l : List Application) (i : String) (s : ApplicationStatus)
    (pid : String) (hs : (s == ApplicationStatus.ACCEPTED) = false) :
    countAcc (l.map (updStatus i s)) pid ≤ countAcc l pid := by
  induction l with
  | nil => simp [countAcc]
  | cons h tl ih =>
    unfold countAcc at ih ⊢
    rw [List.map_cons, List.filter_cons, List.filter_cons]
    by_cases hid : (h.id == i) = true
    · rw [updStatus_of_id i s h hid]
      rw [if_neg (by simp [hs])]
      by_cases hP : (h.projectId == pid && h.status == ApplicationStatus.ACCEPTED) = true
      · rw [if_pos hP, List.length_cons]
        omega
      · rw [if_neg hP]
        exact ih
    · rw [Bool.not_eq_true] at hid
      rw [updStatus_of_ne i s h hid]
      by_cases hP : (h.projectId == pid && h.status == ApplicationStatus.ACCEPTED) = true
      · rw [if_pos hP, if_pos hP, List.length_cons, List.length_cons]
        omega
      · rw [if_neg hP, if_neg hP]
        exact ih

/-- A status write raises the accepted count by at most the number of rows
carrying the written id. -/
theorem countAcc_map_le_add (l : List Application) (i : String) (s : ApplicationStatus)
    (pid : String) :
    countAcc (l.map (updStatus i s)) pid ≤
      countAcc l pid + (l.filter (fun a => a.id == i)).length := by
  induction l with
  | nil => simp [countAcc]
  | cons h tl ih =>
    unfold countAcc at ih ⊢
    rw [List.map_cons, List.filter_cons, List.filter_cons, List.filter_cons]
    by_cases hid : (h.id == i) = true
    · rw [if_pos hid, List.length_cons]
      by_cases hP2 : ((updStatus i s h).projectId == pid &&
          (updStatus i s h).status == ApplicationStatus.ACCEPTED) = true
      · rw [if_pos hP2, List.length_cons]
        by_cases hP : (h.projectId == pid && h.status == ApplicationStatus.ACCEPTED) = true
        · rw [if_pos hP, List.length_cons]; omega
        · rw [if_neg hP]; omega
      · rw [if_neg hP2]
        by_cases hP : (h.projectId == pid && h.status == ApplicationStatus.ACCEPTED) = true
        · rw [if_pos hP, List.length_cons]; omega
        · rw [if_neg hP]; omega
    · rw [Bool.not_eq_true] at hid
      rw [updStatus_of_ne i s h hid]
      have hidneg : ¬((h.id == i) = true) := by simp [hid]
      by_cases hP : (h.projectId == pid && h.status == ApplicationStatus.ACCEPTED) = true
      · rw [if_pos hP, if_pos hP, if_neg hidneg, List.length_cons, List.length_cons]
        omega
      · rw [if_neg hP, if_neg hP, if_neg hidneg]
        exact ih

/-- A status write on rows of one project does not change the accepted
count of any other project. -/
theorem countAcc_map_other (l : List Application) (i : String) (s : ApplicationStatus)
    (pid pid0 : String) (hall : ∀ a ∈ l, a.id = i → a.projectId = pid0) (hne : pid ≠ pid0) :
    countAcc (l.map (updStatus i s)) pid = countAcc l pid := by
  induction l with
  | nil => simp [countAcc]
  | cons h tl ih =>
    have ih2 := ih (fun a ha => hall a (List.mem_cons_of_mem h ha))
    unfold countAcc at ih2 ⊢
    rw [List.map_cons, List.filter_cons, List.filter_cons]
    by_cases hid : (h.id == i) = true
    · have hpid0 : h.projectId = pid0 := hall h (List.mem_cons_self h tl) (by simpa using hid)
      have hPne : (h.projectId == pid) = false := by
        simp [hpid0]
        exact fun hh => hne hh.symm
      rw [updStatus_of_id i s h hid]
      rw [if_neg (by simp [hPne])]
      rw [if_neg (by simp [hPne])]
      exact ih2
    · rw [Bool.not_eq_true] at hid
      rw [updStatus_of_ne i s h hid]
      by_cases hP : (h.projectId == pid && h.status == ApplicationStatus.ACCEPTED) = true
      · rw [if_pos hP, if_pos hP, List.length_cons, List.length_cons, ih2]
      · rw [if_neg hP, if_neg hP, ih2]

/-- Under duplicate-free row ids, at most one row carries a given id. -/
theorem filter_id_length_le_one (l : List Application)
    (hN : (l.map Application.id).Nodup) (i : String) :
    (l.filter (fun a => a.id == i)).length ≤ 1 := by
  rw [← List.countP_eq_length_filter]
  have h1 : l.countP (fun a => a.id == i) =
      (l.map Application.id).countP (fun x => x == i) := by
    rw [List.countP_map]
    rfl
  rw [h1]
  have := List.nodup_iff_count_le_one.mp hN i
  rwa [List.count] at this

/-- The capacity invariant of spec section 8: for every project, the count
of its ACCEPTED applications never exceeds `maxStudents`. -/
def capInv (db : DB) : Prop :=
  ∀ p ∈ db.projects, acceptedCount db p.id ≤ p.maxStudents

/-- Primary-key well-formedness of the store: application ids and project
ids are duplicate-free. -/
def WFdb (db : DB) : Prop :=
  (db.applications.map Application.id).Nodup ∧ (db.projects.map Project.id).Nodup

/-- The non-admin operations that write the applications table. -/
inductive AppMutOp where
  | applyPR (sub : String) (roles : List String) (collegeId department : Option String)
      (id : String) (message : Option String) (now : Nat) (newId : String)
  | applyStudent (sub : String) (roles : List String) (collegeId department : Option String)
      (projectId : String) (message : String) (newId : String)
  | facultyStatus (sub : String) (roles : List String) (collegeId : Option String)
      (appId : String) (newStatus : ApplicationStatus)
  | withdraw (sub : String) (roles : List String) (appId : String)

/-- Run one non-admin application-mutating operation. -/
def runAppOp (op : AppMutOp) (db : DB) : DB :=
  match op with
  | AppMutOp.applyPR sub roles cid dept id msg now nid =>
    (applyToProject db sub roles cid dept id msg now nid).2
  | AppMutOp.applyStudent sub roles cid dept pid m nid =>
    (applyToProjectStudent db sub roles cid dept pid m nid).2
  | AppMutOp.facultyStatus sub roles cid aid s =>
    (updateApplicationStatus db sub roles cid aid s).2
  | AppMutOp.withdraw sub roles aid =>
    (withdrawApplication db sub roles aid).2

/-- The id strings the datastore generates for created rows are fresh. -/
def opFresh (op : AppMutOp) (db : DB) : Prop :=
  match op with
  | AppMutOp.applyPR _ _ _ _ _ _ _ nid => nid ∉ db.applications.map Application.id
  | AppMutOp.applyStudent _ _ _ _ _ _ nid => nid ∉ db.applications.map Application.id
  | _ => True

/-- Run a sequence of non-admin application-mutating operations. -/
def runAppOps : List AppMutOp → DB → DB
  | [], db => db
  | op :: ops, db => runAppOps ops (runAppOp op db)

/-- Freshness of created ids holds at every step of a sequence. -/
def FreshAlong : List AppMutOp → DB → Prop
  | [], _ => True
  | op :: ops, db => opFresh op db ∧ FreshAlong ops (runAppOp op db)

/-- The projects.routes apply handler either leaves the store unchanged or
— only when no `(projectId, studentId)` row exists — appends one PENDING
row. -/
theorem applyToProject_db_cases (db : DB) (sub : String) (roles : List String)
    (cid dept : Option String) (id : String) (msg : Option String) (now : Nat)
    (nid : String) :
    (applyToProject db sub roles cid dept id msg now nid).2 = db ∨
    (hasAnyApp db id sub = false ∧
      (applyToProject db sub roles cid dept id msg now nid).2 =
        { db with applications := db.applications ++
          [{ id := nid, projectId := id, studentId := sub,
             status := ApplicationStatus.PENDING, message := msg }] }) := by
  unfold applyToProject
  repeat' split
  all_goals
    first
      | exact Or.inl rfl
      | (rename_i h9
         rw [Bool.not_eq_true] at h9
         exact Or.inr ⟨h9, rfl⟩)

/-- The student.routes apply handler either leaves the store unchanged or
— only when no `(projectId, studentId)` row exists — appends one PENDING
row. -/
theorem applyToProjectStudent_db_cases (db : DB) (sub : String) (roles : List String)
    (cid dept : Option String) (pid : String) (m : String) (nid : String) :
    (applyToProjectStudent db sub roles cid dept pid m nid).2 = db ∨
    (hasAnyApp db pid sub = false ∧
      (applyToProjectStudent db sub roles cid dept pid m nid).2 =
        { db with applications := db.applications ++
          [{ id := nid, projectId := pid, studentId := sub,
             status := ApplicationStatus.PENDING, message := some m }] }) := by
  unfold applyToProjectStudent
  repeat' split
  all_goals
    first
      | exact Or.inl rfl
      | (rename_i h9
         rw [Bool.not_eq_true] at h9
         exact Or.inr ⟨h9, rfl⟩)

/-- The withdraw handler either leaves the store unchanged or deletes the
targeted row. -/
theorem withdrawApplication_db_cases (db : DB) (sub : String) (roles : List String)
    (aid : String) :
    (withdrawApplication db sub roles aid).2 = db ∨
    (withdrawApplication db sub roles aid).2 =
      { db with applications := db.applications.filter (fun a => !(a.id == aid)) } := by
  unfold withdrawApplication
  repeat' split
  all_goals
    first
      | exact Or.inl rfl
      | exact Or.inr rfl

/-- The faculty status-update handler either leaves the store unchanged
or writes the new status onto a PENDING application, and for an ACCEPTED
write only below capacity. -/
theorem updateApplicationStatus_db_cases (db : DB) (sub : String) (roles : List String)
    (cid : Option String) (aid : String) (s : ApplicationStatus) :
    (updateApplicationStatus db sub roles cid aid s).2 = db ∨
    (∃ a p, db.applications.find? (fun b => b.id == aid) = some a ∧
      db.projects.find? (fun q => q.id == a.projectId) = some p ∧
      a.status = ApplicationStatus.PENDING ∧
      (s = ApplicationStatus.ACCEPTED → acceptedCount db a.projectId < p.maxStudents) ∧
      (updateApplicationStatus db sub roles cid aid s).2 =
        { db with applications := db.applications.map (updStatus aid s) }) := by
  unfold updateApplicationStatus
  split
  · exact Or.inl rfl
  split
  · exact Or.inl rfl
  rename_i a ha
  split
  · exact Or.inl rfl
  rename_i p hp
  split
  · exact Or.inl rfl
  rename_i h1
  split
  · exact Or.inl rfl
  rename_i h2
  split
  · exact Or.inl rfl
  rename_i h3
  refine Or.inr ⟨a, p, ha, hp, ?_, ?_, rfl⟩
  · rw [Bool.not_eq_true] at h2
    simpa using h2
  · intro hs
    rw [hs] at h3
    simp only [Bool.not_eq_true, Bool.and_eq_true, beq_self_eq_true,
      Bool.true_and, decide_eq_true_eq] at h3
    omega


theorem updStatus_id (aid : String) (s : ApplicationStatus) (b : Application) :
    (updStatus aid s b).id = b.id := by
  unfold updStatus; split <;> rfl

theorem map_id_map_updStatus (l : List Application) (aid : String) (s : ApplicationStatus) :
    (l.map (updStatus aid s)).map Application.id = l.map Application.id := by
  rw [List.map_map]
  exact List.map_congr_left (fun b _ => updStatus_id aid s b)

/-- One non-admin application-mutating operation preserves the primary
keys and the capacity invariant. -/
theorem WF_capInv_runAppOp (op : AppMutOp) (db : DB) (hWF : WFdb db) (hInv : capInv db)
    (hF : opFresh op db) : WFdb (runAppOp op db) ∧ capInv (runAppOp op db) := by
  cases op with
  | applyPR sub roles cid dept id msg now nid =>
    simp only [runAppOp]
    rcases applyToProject_db_cases db sub roles cid dept id msg now nid with h | ⟨hdup, h⟩
    · rw [h]; exact ⟨hWF, hInv⟩
    · rw [h]
      refine ⟨⟨?_, hWF.2⟩, ?_⟩
      · rw [List.map_append]
        rw [List.nodup_append]
        refine ⟨hWF.1, List.nodup_singleton _, ?_⟩
        intro x hx hx2
        simp only [List.map_cons, List.map_nil, List.mem_singleton] at hx2
        rw [hx2] at hx
        have hfr : nid ∉ db.applications.map Application.id := hF
        exact hfr hx
      · intro p hp
        rw [acceptedCount_eq_countAcc]
        show countAcc (db.applications ++
          [{ id := nid, projectId := id, studentId := sub,
             status := ApplicationStatus.PENDING, message := msg }]) p.id ≤ p.maxStudents
        rw [countAcc_append_nonaccepted db.applications
          { id := nid, projectId := id, studentId := sub,
            status := ApplicationStatus.PENDING, message := msg } p.id rfl]
        exact hInv p hp
  | applyStudent sub roles cid dept pid m nid =>
    simp only [runAppOp]
    rcases applyToProjectStudent_db_cases db sub roles cid dept pid m nid with h | ⟨hdup, h⟩
    · rw [h]; exact ⟨hWF, hInv⟩
    · rw [h]
      refine ⟨⟨?_, hWF.2⟩, ?_⟩
      · rw [List.map_append]
        rw [List.nodup_append]
        refine ⟨hWF.1, List.nodup_singleton _, ?_⟩
        intro x hx hx2
        simp only [List.map_cons, List.map_nil, List.mem_singleton] at hx2
        rw [hx2] at hx
        have hfr : nid ∉ db.applications.map Application.id := hF
        exact hfr hx
      · intro p hp
        rw [acceptedCount_eq_countAcc]
        show countAcc (db.applications ++
          [{ id := nid, projectId := pid, studentId := sub,
             status := ApplicationStatus.PENDING, message := some m }]) p.id ≤ p.maxStudents
        rw [countAcc_append_nonaccepted db.applications
          { id := nid, projectId := pid, studentId := sub,
            status := ApplicationStatus.PENDING, message := some m } p.id rfl]
        exact hInv p hp
  | withdraw sub roles aid =>
    simp only [runAppOp]
    rcases withdrawApplication_db_cases db sub roles aid with h | h
    · rw [h]; exact ⟨hWF, hInv⟩
    · rw [h]
      refine ⟨⟨?_, hWF.2⟩, ?_⟩
      · exact List.Nodup.sublist (List.Sublist.map _ (List.filter_sublist _)) hWF.1
      · intro p hp
        rw [acceptedCount_eq_countAcc]
        show countAcc (db.applications.filter (fun a => !(a.id == aid))) p.id ≤ p.maxStudents
        exact le_trans (countAcc_filter_le db.applications _ p.id) (hInv p hp)
  | facultyStatus sub roles cid aid s =>
    simp only [runAppOp]
    rcases updateApplicationStatus_db_cases db sub roles cid aid s with h | ⟨a, p, ha, hp, hpend, hcap, h⟩
    · rw [h]; exact ⟨hWF, hInv⟩
    · rw [h]
      have hamem := List.mem_of_find?_eq_some ha
      have haid : a.id = aid := by simpa using List.find?_some ha
      have hall : ∀ b ∈ db.applications, b.id = aid → b.projectId = a.projectId := by
        intro b hb hbid
        have hba : b = a := List.inj_on_of_nodup_map hWF.1 hb hamem (by rw [hbid, haid])
        rw [hba]
      refine ⟨⟨?_, hWF.2⟩, ?_⟩
      · rw [map_id_map_updStatus]
        exact hWF.1
      · intro q hq
        rw [acceptedCount_eq_countAcc]
        show countAcc (db.applications.map (updStatus aid s)) q.id ≤ q.maxStudents
        by_cases hqid : q.id = a.projectId
        · have hpmem := List.mem_of_find?_eq_some hp
          have hpid : p.id = a.projectId := by simpa using List.find?_some hp
          have hqp : q = p := List.inj_on_of_nodup_map hWF.2 hq hpmem (by rw [hqid, hpid])
          by_cases hs : s = ApplicationStatus.ACCEPTED
          · have hlt := hcap hs
            rw [acceptedCount_eq_countAcc] at hlt
            have h1 := countAcc_map_le_add db.applications aid s q.id
            have h2 := filter_id_length_le_one db.applications hWF.1 aid
            rw [hqid] at h1 ⊢
            rw [hqp]
            omega
          · have hsb : (s == ApplicationStatus.ACCEPTED) = false := by
              simp [hs]
            exact le_trans (countAcc_map_nonaccept_le db.applications aid s q.id hsb)
              (hInv q hq)
        · rw [countAcc_map_other db.applications aid s q.id a.projectId hall hqid]
          exact hInv q hq

/-- Any sequence of non-admin application-mutating operations preserves
the capacity invariant. -/
theorem capInv_runAppOps (ops : List AppMutOp) (db : DB) (hWF : WFdb db)
    (hInv : capInv db) (hFA : FreshAlong ops db) : capInv (runAppOps ops db) := by
  induction ops generalizing db with
  | nil => exact hInv
  | cons op ops ih =>
    obtain ⟨hF, hFA2⟩ := hFA
    obtain ⟨hWF2, hInv2⟩ := WF_capInv_runAppOp op db hWF hInv hF
    exact ih (runAppOp op db) hWF2 hInv2 hFA2


/-- A full project: `maxStudents = 1` with one ACCEPTED application. -/
def pCap : Project :=
  { id := "pc1", collegeId := "T1", authorId := "F", title := "Capacity project",
    departments := [], visibleToAllDepts := true, maxStudents := 1,
    deadline := none, moderationStatus := ModerationStatus.APPROVED,
    progressStatus := ProgressStatus.OPEN, archivedAt := none }

/-- The ACCEPTED application filling `pCap`. -/
def aAcc : Application :=
  { id := "a1", projectId := "pc1", studentId := "A",
    status := ApplicationStatus.ACCEPTED, message := none }

/-- A second, still PENDING application on `pCap`. -/
def aPend : Application :=
  { id := "a2", projectId := "pc1", studentId := "B",
    status := ApplicationStatus.PENDING, message := none }

/-- The store where `pCap` is at capacity. -/
def dbCap : DB := { projects := [pCap], applications := [aAcc, aPend], tasks := [] }

/-- A SUPER_ADMIN actor. -/
def adminSuper : AdminAuthPayload :=
  { sub := "root", roles := ["SUPER_ADMIN"], collegeId := none }

/-- C1 counterexample: the admin status-update accepts the second
application of a `maxStudents = 1` project that already has one ACCEPTED
application — it performs no capacity check — driving the ACCEPTED count
to 2 and violating the claimed invariant on a reachable state. -/
theorem accepted_capacity_admin_cex :
    (adminUpdateApplicationStatus dbCap adminSuper "a2" ApplicationStatus.ACCEPTED).1 = 200 ∧
    acceptedCount
      (adminUpdateApplicationStatus dbCap adminSuper "a2" ApplicationStatus.ACCEPTED).2
      "pc1" = 2 ∧
    pCap ∈ dbCap.projects ∧ pCap.maxStudents = 1 ∧ pCap.id = "pc1" := by
  refine ⟨rfl, rfl, ?_, rfl, rfl⟩
  decide

/-- C1 amended: the faculty accept operation (PUT
/v1/applications/:id/status) succeeds only when the ACCEPTED count is
strictly below `maxStudents`, and at capacity returns a 400 capacity
error leaving the store unchanged; every sequence of **non-admin**
application-mutating operations preserves `count(ACCEPTED) <= maxStudents`
— but the admin status-update operation (PATCH
/v1/admin/applications/:id/status) performs no capacity check and can
break the invariant. -/
theorem accepted_capacity_amended :
    (∀ (db : DB) (sub : String) (roles : List String) (cid : Option String)
        (aid : String) (a : Application) (p : Project),
      db.applications.find? (fun b => b.id == aid) = some a →
      db.projects.find? (fun q => q.id == a.projectId) = some p →
      ((updateApplicationStatus db sub roles cid aid ApplicationStatus.ACCEPTED).1 = 200 →
        acceptedCount db a.projectId < p.maxStudents) ∧
      (roles.contains "FACULTY" = true → strictEq cid p.collegeId = true →
        p.authorId = sub → a.status = ApplicationStatus.PENDING →
        p.maxStudents ≤ acceptedCount db a.projectId →
        updateApplicationStatus db sub roles cid aid ApplicationStatus.ACCEPTED =
          (400, db))) ∧
    (∀ (ops : List AppMutOp) (db : DB), WFdb db → capInv db → FreshAlong ops db →
      capInv (runAppOps ops db)) := by
  constructor
  · intro db sub roles cid aid a p ha hp
    constructor
    · intro h200
      unfold updateApplicationStatus at h200
      rw [ha] at h200
      simp only at h200
      rw [hp] at h200
      simp only at h200
      repeat' split at h200
      all_goals simp_all
    · intro hrole hauth hown hpend hge
      unfold updateApplicationStatus
      rw [ha]
      simp only
      rw [hp]
      simp only
      rw [if_neg (by rw [hrole]; simp)]
      rw [if_neg (by rw [hauth, hown]; simp)]
      rw [if_neg (by rw [hpend]; simp)]
      rw [if_pos (by simp [hge])]
  · exact fun ops db hWF hInv hFA => capInv_runAppOps ops db hWF hInv hFA

/-- C1 witness: the amended guarantees at the concrete full store — the
faculty accept of the second application fails with 400, and a withdraw
sequence keeps the invariant. -/
theorem accepted_capacity_amended_witness :
    updateApplicationStatus dbCap "F" ["FACULTY"] (some "T1") "a2"
      ApplicationStatus.ACCEPTED = (400, dbCap) ∧
    capInv (runAppOps [AppMutOp.withdraw "B" ["STUDENT"] "a2"] dbCap) := by
  constructor
  · exact (accepted_capacity_amended.1 dbCap "F" ["FACULTY"] (some "T1") "a2"
      aPend pCap rfl rfl).2 rfl rfl rfl rfl (by decide)
  · exact accepted_capacity_amended.2 [AppMutOp.withdraw "B" ["STUDENT"] "a2"] dbCap
      (by constructor <;> decide) (by unfold capInv; decide) ⟨trivial, trivial⟩

/-- The projects.routes apply handler returns 200 (row created) only when
no duplicate `(projectId, studentId)` row exists; otherwise its result
code differs from 200 and the store is unchanged. -/
theorem applyToProject_code_cases (db : DB) (sub : String) (roles : List String)
    (cid dept : Option String) (id : String) (msg : Option String) (now : Nat)
    (nid : String) :
    ((applyToProject db sub roles cid dept id msg now nid).1 = 200 ∧
      hasAnyApp db id sub = false ∧
      (applyToProject db sub roles cid dept id msg now nid).2 =
        { db with applications := db.applications ++
          [{ id := nid, projectId := id, studentId := sub,
             status := ApplicationStatus.PENDING, message := msg }] }) ∨
    ((applyToProject db sub roles cid dept id msg now nid).1 ≠ 200 ∧
      (applyToProject db sub roles cid dept id msg now nid).2 = db) := by
  unfold applyToProject
  repeat' split
  all_goals
    first
      | exact Or.inr ⟨by simp, rfl⟩
      | (rename_i h9
         rw [Bool.not_eq_true] at h9
         exact Or.inl ⟨rfl, h9, rfl⟩)

/-- The student.routes apply handler returns 201 (row created) only when
no duplicate `(projectId, studentId)` row exists; otherwise its result
code differs from 201 and the store is unchanged. -/
theorem applyToProjectStudent_code_cases (db : DB) (sub : String) (roles : List String)
    (cid dept : Option String) (pid : String) (m : String) (nid : String) :
    ((applyToProjectStudent db sub roles cid dept pid m nid).1 = 201 ∧
      hasAnyApp db pid sub = false ∧
      (applyToProjectStudent db sub roles cid dept pid m nid).2 =
        { db with applications := db.applications ++
          [{ id := nid, projectId := pid, studentId := sub,
             status := ApplicationStatus.PENDING, message := some m }] }) ∨
    ((applyToProjectStudent db sub roles cid dept pid m nid).1 ≠ 201 ∧
      (applyToProjectStudent db sub roles cid dept pid m nid).2 = db) := by
  unfold applyToProjectStudent
  repeat' split
  all_goals
    first
      | exact Or.inr ⟨by simp, rfl⟩
      | (rename_i h9
         rw [Bool.not_eq_true] at h9
         exact Or.inl ⟨rfl, h9, rfl⟩)

/-- The compound unique key `(projectId, studentId)` of AppliedProject. -/
def pairKey (a : Application) : String × String := (a.projectId, a.studentId)

/-- At most one application per `(projectId, studentId)` pair. -/
def uniquePairs (db : DB) : Prop := (db.applications.map pairKey).Nodup

/-- A status write does not move an application between pairs. -/
theorem pairKey_updStatus (aid : String) (s : ApplicationStatus) (b : Application) :
    pairKey (updStatus aid s b) = pairKey b := by
  unfold updStatus pairKey; split <;> rfl

/-- Every non-admin application-mutating operation preserves pair
uniqueness. -/
theorem uniquePairs_runAppOp (op : AppMutOp) (db : DB) (hU : uniquePairs db) :
    uniquePairs (runAppOp op db) := by
  cases op with
  | applyPR sub roles cid dept id msg now nid =>
    simp only [runAppOp]
    rcases applyToProject_db_cases db sub roles cid dept id msg now nid with h | ⟨hdup, h⟩
    · rw [h]; exact hU
    · rw [h]
      unfold uniquePairs at hU ⊢
      rw [List.map_append, List.nodup_append]
      refine ⟨hU, List.nodup_singleton _, ?_⟩
      intro x hx hx2
      simp only [List.map_cons, List.map_nil, List.mem_singleton] at hx2
      rcases List.mem_map.mp hx with ⟨b, hb, rfl⟩
      unfold hasAnyApp at hdup
      rw [List.any_eq_false] at hdup
      have := hdup b hb
      unfold pairKey at hx2
      simp only [Prod.mk.injEq] at hx2
      simp [hx2.1, hx2.2] at this
  | applyStudent sub roles cid dept pid m nid =>
    simp only [runAppOp]
    rcases applyToProjectStudent_db_cases db sub roles cid dept pid m nid with h | ⟨hdup, h⟩
    · rw [h]; exact hU
    · rw [h]
      unfold uniquePairs at hU ⊢
      rw [List.map_append, List.nodup_append]
      refine ⟨hU, List.nodup_singleton _, ?_⟩
      intro x hx hx2
      simp only [List.map_cons, List.map_nil, List.mem_singleton] at hx2
      rcases List.mem_map.mp hx with ⟨b, hb, rfl⟩
      unfold hasAnyApp at hdup
      rw [List.any_eq_false] at hdup
      have := hdup b hb
      unfold pairKey at hx2
      simp only [Prod.mk.injEq] at hx2
      simp [hx2.1, hx2.2] at this
  | withdraw sub roles aid =>
    simp only [runAppOp]
    rcases withdrawApplication_db_cases db sub roles aid with h | h
    · rw [h]; exact hU
    · rw [h]
      exact List.Nodup.sublist (List.Sublist.map _ (List.filter_sublist _)) hU
  | facultyStatus sub roles cid aid s =>
    simp only [runAppOp]
    rcases updateApplicationStatus_db_cases db sub roles cid aid s with
      h | ⟨a, p, ha, hp, hpend, hcap, h⟩
    · rw [h]; exact hU
    · rw [h]
      unfold uniquePairs at hU ⊢
      show (List.map pairKey (db.applications.map (updStatus aid s))).Nodup
      have hmm : List.map pairKey (db.applications.map (updStatus aid s)) =
          List.map pairKey db.applications := by
        rw [List.map_map]
        exact List.map_congr_left (fun b _ => pairKey_updStatus aid s b)
      rw [hmm]
      exact hU


/-- An open, approved, everyone-visible project with free capacity. -/
def pOpen : Project :=
  { id := "p3", collegeId := "T1", authorId := "F3", title := "Open CS project",
    departments := ["CS"], visibleToAllDepts := true, maxStudents := 5,
    deadline := none, moderationStatus := ModerationStatus.APPROVED,
    progressStatus := ProgressStatus.OPEN, archivedAt := none }

/-- Student S's existing application on `pOpen`. -/
def aDup : Application :=
  { id := "a3", projectId := "p3", studentId := "S",
    status := ApplicationStatus.PENDING, message := some "hi" }

/-- The store where student S has already applied to `pOpen`. -/
def dbDup : DB := { projects := [pOpen], applications := [aDup], tasks := [] }

/-- C3 counterexample: the student.routes apply handler rejects the
second apply of the same student with HTTP **400**, not the claimed
Conflict (409) outcome (it does leave the store unchanged). -/
theorem duplicate_apply_cex :
    applyToProjectStudent dbDup "S" ["STUDENT"] (some "T1") (some "CS") "p3" "again" "a4" =
      (400, dbDup) ∧
    (applyToProjectStudent dbDup "S" ["STUDENT"] (some "T1") (some "CS") "p3" "again"
      "a4").1 ≠ 409 := by
  decide

/-- C3 amended: when an application row for `(P, S)` exists, neither
apply handler creates a row — the projects.routes handler (all of whose
earlier guards passing) returns 409 Conflict, while the student.routes
handler rejects with 400 — and every application-mutating operation
preserves at-most-one-application-per-(projectId, studentId). -/
theorem duplicate_apply_amended :
    (∀ (db : DB) (sub : String) (roles : List String) (cid dept : Option String)
        (id : String) (msg : Option String) (now : Nat) (nid : String),
      hasAnyApp db id sub = true →
        (applyToProject db sub roles cid dept id msg now nid).2 = db ∧
        (applyToProject db sub roles cid dept id msg now nid).1 ≠ 200) ∧
    (∀ (db : DB) (sub : String) (roles : List String) (cid dept : Option String)
        (pid m nid : String),
      hasAnyApp db pid sub = true →
        (applyToProjectStudent db sub roles cid dept pid m nid).2 = db ∧
        (applyToProjectStudent db sub roles cid dept pid m nid).1 ≠ 201) ∧
    (∀ (db : DB) (sub : String) (roles : List String) (c : String)
        (dept : Option String) (id : String) (msg : Option String) (now : Nat)
        (nid : String) (p : Project),
      roles.contains "STUDENT" = true →
      db.projects.find?
        (fun q => q.id == id && q.collegeId == c && q.archivedAt == none) = some p →
      p.moderationStatus = ModerationStatus.APPROVED →
      p.progressStatus ≠ ProgressStatus.COMPLETED →
      deptVisible dept p = true →
      (∀ dl, p.deadline = some dl → ¬ dl < now) →
      hasAnyApp db id sub = true →
      applyToProject db sub roles (some c) dept id msg now nid = (409, db)) ∧
    (∀ (op : AppMutOp) (db : DB), uniquePairs db → uniquePairs (runAppOp op db)) := by
  refine ⟨?_, ?_, ?_, fun op db hU => uniquePairs_runAppOp op db hU⟩
  · intro db sub roles cid dept id msg now nid hdup
    rcases applyToProject_code_cases db sub roles cid dept id msg now nid with
      ⟨h200, hfree, h⟩ | ⟨hne, hdb⟩
    · rw [hdup] at hfree; cases hfree
    · exact ⟨hdb, hne⟩
  · intro db sub roles cid dept pid m nid hdup
    rcases applyToProjectStudent_code_cases db sub roles cid dept pid m nid with
      ⟨h201, hfree, h⟩ | ⟨hne, hdb⟩
    · rw [hdup] at hfree; cases hfree
    · exact ⟨hdb, hne⟩
  · intro db sub roles c dept id msg now nid p hrole hfind hmod hprog hvis hdl hdup
    unfold applyToProject
    rw [if_neg (by rw [hrole]; simp)]
    simp only [hfind]
    rw [if_neg (by rw [hmod]; simp)]
    rw [if_neg (by simp; intro hh; exact hprog hh)]
    rw [if_neg (by rw [hvis]; simp)]
    rw [if_neg (by
      rcases hdl2 : p.deadline with _ | dl
      · simp
      · simp only [decide_eq_true_eq]
        exact hdl dl hdl2)]
    rw [if_pos hdup]

/-- C3 witness: the concrete duplicate apply through the projects.routes
handler yields 409 and leaves the store unchanged. -/
theorem duplicate_apply_amended_witness :
    applyToProject dbDup "S" ["STUDENT"] (some "T1") (some "CS") "p3" (some "again")
      0 "a4" = (409, dbDup) := by
  exact duplicate_apply_amended.2.2.1 dbDup "S" ["STUDENT"] "T1" (some "CS") "p3"
    (some "again") 0 "a4" pOpen rfl rfl rfl (by decide) rfl
    (fun dl h => by cases h) rfl

/-- Student S's ACCEPTED (terminal) application. -/
def aAccOwn : Application :=
  { id := "a5", projectId := "p3", studentId := "S",
    status := ApplicationStatus.ACCEPTED, message := none }

/-- The store with a terminal application to withdraw. -/
def dbWd : DB := { projects := [pOpen], applications := [aAccOwn], tasks := [] }

/-- C4 counterexample: the owning student's withdraw of a non-PENDING
application fails with HTTP **400**, which is neither the claimed
Conflict (409) nor Forbidden (403) class. -/
theorem withdraw_terminal_cex :
    withdrawApplication dbWd "S" ["STUDENT"] "a5" = (400, dbWd) ∧
    (withdrawApplication dbWd "S" ["STUDENT"] "a5").1 ≠ 409 ∧
    (withdrawApplication dbWd "S" ["STUDENT"] "a5").1 ≠ 403 := by
  decide

/-- C4 amended: the owning student's withdraw of a non-PENDING
application fails with a 400 error and leaves the store unchanged, and
the non-admin status-update operation never changes any non-PENDING
application (its store is returned untouched on every path), so
ACCEPTED/REJECTED are terminal under non-admin flow. -/
theorem withdraw_terminal_amended :
    (∀ (db : DB) (sub : String) (roles : List String) (aid : String) (a : Application),
      roles.contains "STUDENT" = true →
      db.applications.find? (fun b => b.id == aid) = some a →
      a.studentId = sub →
      a.status ≠ ApplicationStatus.PENDING →
      withdrawApplication db sub roles aid = (400, db)) ∧
    (∀ (db : DB) (sub : String) (roles : List String) (cid : Option String)
        (aid : String) (s : ApplicationStatus) (a : Application),
      db.applications.find? (fun b => b.id == aid) = some a →
      a.status ≠ ApplicationStatus.PENDING →
      (updateApplicationStatus db sub roles cid aid s).2 = db) := by
  constructor
  · intro db sub roles aid a hrole ha hown hpend
    unfold withdrawApplication
    rw [if_neg (by rw [hrole]; simp)]
    simp only [ha]
    rw [if_neg (by rw [hown]; simp)]
    rw [if_pos (by simp [hpend])]
  · intro db sub roles cid aid s a ha hpend
    unfold updateApplicationStatus
    simp only [ha]
    repeat' split
    all_goals
      first
        | rfl
        | (rename_i h2 h3
           exfalso
           exact hpend (by simpa using h2))

/-- C4 witness: the amended behaviour at the concrete store with an
ACCEPTED application. -/
theorem withdraw_terminal_amended_witness :
    withdrawApplication dbWd "S" ["STUDENT"] "a5" = (400, dbWd) ∧
    (updateApplicationStatus dbWd "F3" ["FACULTY"] (some "T1") "a5"
      ApplicationStatus.PENDING).2 = dbWd := by
  constructor
  · exact withdraw_terminal_amended.1 dbWd "S" ["STUDENT"] "a5" aAccOwn rfl rfl rfl
      (by decide)
  · exact withdraw_terminal_amended.2 dbWd "F3" ["FACULTY"] (some "T1") "a5"
      ApplicationStatus.PENDING aAccOwn rfl (by decide)

/-- A project authored by faculty F, with student A as accepted member. -/
def pTask : Project :=
  { id := "p5", collegeId := "T1", authorId := "F", title := "Task project",
    departments := [], visibleToAllDepts := true, maxStudents := 3,
    deadline := none, moderationStatus := ModerationStatus.APPROVED,
    progressStatus := ProgressStatus.IN_PROGRESS, archivedAt := none }

/-- Student A's ACCEPTED application on `pTask`. -/
def aMember : Application :=
  { id := "a6", projectId := "p5", studentId := "A",
    status := ApplicationStatus.ACCEPTED, message := none }

/-- A task on `pTask` assigned to student A. -/
def tTask : Task :=
  { id := "t1", projectId := "p5", title := "orig title",
    assignedToId := some "A", status := TaskStatus.TODO }

/-- The store for the task-update scenario. -/
def dbTask : DB := { projects := [pTask], applications := [aMember], tasks := [tTask] }

/-- A request body that changes only the title. -/
def titleBody : UpdateTaskBody :=
  { title := some "hacked", assignedToId := none, status := none }

/-- C5 counterexample: through the collaboration.routes task handler, the
non-author member A changes a task's **title** successfully (status 200
and the stored title mutated) — the handler only checks membership, so
the claimed actor-is-assignee/status-only restriction fails there. -/
theorem task_update_cex :
    (updateTaskCollab dbTask "A" ["STUDENT"] "t1" titleBody).1 = 200 ∧
    (updateTaskCollab dbTask "A" ["STUDENT"] "t1" titleBody).2.tasks =
      [{ tTask with title := "hacked" }] ∧
    pTask.authorId ≠ "A" ∧ hasAcceptedApp dbTask "p5" "A" = true := by
  decide

/-- C5 amended: under the projects.routes.ts task handler the claim holds
— a non-author actor succeeds only as a STUDENT assigned to the task
sending a status-only body, a title (or assignedToId) attempt by the
assigned student is rejected with 403 Forbidden, and every failing request
leaves the store unchanged.  The collaboration.routes.ts variant instead
lets any member update any field (see the counterexample). -/
theorem task_update_amended :
    (∀ (db : DB) (sub : String) (roles : List String) (cid : Option String)
        (taskId : String) (body : UpdateTaskBody) (t : Task) (p : Project),
      db.tasks.find? (fun x => x.id == taskId) = some t →
      db.projects.find? (fun q => q.id == t.projectId) = some p →
      ¬(roles.contains "FACULTY" = true ∧ p.authorId = sub) →
      ((updateTaskPR db sub roles cid taskId body).1 = 200 →
        roles.contains "STUDENT" = true ∧ t.assignedToId = some sub ∧
        body.title = none ∧ body.assignedToId = none ∧ body.status ≠ none ∧
        (updateTaskPR db sub roles cid taskId body).2 =
          updateTaskRow db taskId
            (fun x => { x with status := body.status.getD x.status }))) ∧
    (∀ (db : DB) (sub : String) (roles : List String) (cid : Option String)
        (taskId : String) (body : UpdateTaskBody) (t : Task) (p : Project),
      db.tasks.find? (fun x => x.id == taskId) = some t →
      db.projects.find? (fun q => q.id == t.projectId) = some p →
      strictEq cid p.collegeId = true → p.archivedAt = none →
      ¬(roles.contains "FACULTY" = true ∧ p.authorId = sub) →
      roles.contains "STUDENT" = true → t.assignedToId = some sub →
      body.title ≠ none →
      updateTaskPR db sub roles cid taskId body = (403, db)) ∧
    (∀ (db : DB) (sub : String) (roles : List String) (cid : Option String)
        (taskId : String) (body : UpdateTaskBody),
      (updateTaskPR db sub roles cid taskId body).1 ≠ 200 →
      (updateTaskPR db sub roles cid taskId body).2 = db) := by
  refine ⟨?_, ?_, ?_⟩
  · intro db sub roles cid taskId body t p ht hp hNotOwner
    unfold updateTaskPR
    simp only [ht, hp]
    split
    · intro h200; simp at h200
    · split
      · rename_i hcond
        intro h200
        rw [Bool.and_eq_true] at hcond
        exact absurd ⟨hcond.1, by simpa using hcond.2⟩ hNotOwner
      · split
        · rename_i hstu
          split
          · intro h200; simp at h200
          · rename_i hgood
            intro h200
            rw [Bool.and_eq_true] at hstu
            have h1 : body.status ≠ none := by
              intro hh
              exact hgood (by simp [hh])
            have h2 : body.title = none := by
              rcases hh : body.title with _ | v
              · rfl
              · exact absurd (by simp [hh]) hgood
            have h3 : body.assignedToId = none := by
              rcases hh : body.assignedToId with _ | v
              · rfl
              · exact absurd (by simp [hh]) hgood
            exact ⟨hstu.1, by simpa using hstu.2, h2, h3, h1, rfl⟩
        · intro h200; simp at h200
  · intro db sub roles cid taskId body t p ht hp hcol harch hNotOwner hrole2 hass htitle
    unfold updateTaskPR
    simp only [ht, hp]
    rw [if_neg (by rw [hcol, harch]; simp)]
    rw [if_neg (by
      intro hc
      rw [Bool.and_eq_true] at hc
      exact hNotOwner ⟨hc.1, by simpa using hc.2⟩)]
    rw [if_pos (by rw [hrole2, hass]; simp)]
    rw [if_pos (by
      rcases hbt2 : body.title with _ | v
      · exact absurd hbt2 htitle
      · simp [hbt2])]
  · intro db sub roles cid taskId body
    unfold updateTaskPR
    repeat' split
    all_goals
      first
        | (intro h; rfl)
        | (intro h; exact absurd rfl h)

/-- C5 witness: student A's attempt to change the title through the
projects.routes handler is rejected with 403 and no change. -/
theorem task_update_amended_witness :
    updateTaskPR dbTask "A" ["STUDENT"] (some "T1") "t1" titleBody = (403, dbTask) := by
  exact task_update_amended.2.1 dbTask "A" ["STUDENT"] (some "T1") "t1" titleBody
    tTask pTask rfl rfl rfl rfl (by intro h; exact absurd h.2 (by decide)) rfl rfl
    (by intro h; cases h)

/-- C8 counterexample: the projects.routes apply handler succeeds (a row
is created) on a project whose ACCEPTED count already equals
`maxStudents` — the handler performs no accepted-count check, so the
claimed capacity precondition does not exist. -/
theorem apply_preconditions_cex :
    (applyToProject dbCap "C" ["STUDENT"] (some "T1") none "pc1" none 0 "a9").1 = 200 ∧
    acceptedCount dbCap "pc1" = pCap.maxStudents ∧
    (applyToProject dbCap "C" ["STUDENT"] (some "T1") none "pc1" none 0
      "a9").2.applications.length = dbCap.applications.length + 1 := by
  decide

/-- C8 amended: the projects.routes apply succeeds **exactly** when the
actor has role STUDENT, the scope has a tenant id, the project exists in
that tenant unarchived, is APPROVED, not COMPLETED, department-visible,
its deadline (if set) has not passed, and the actor has no existing
application — with **no** accepted-count precondition; on success exactly
one PENDING row is appended, otherwise the store is unchanged.  The
student.routes variant does reject at capacity (last conjunct) but
requires `progressStatus = OPEN` and checks no deadline. -/
theorem apply_preconditions_amended :
    (∀ (db : DB) (sub : String) (roles : List String) (cid dept : Option String)
        (id : String) (msg : Option String) (now : Nat) (nid : String),
      (db.projects.map Project.id).Nodup →
      ((applyToProject db sub roles cid dept id msg now nid).1 = 200 ↔
        (roles.contains "STUDENT" = true ∧
         ∃ c, cid = some c ∧
         ∃ p, p ∈ db.projects ∧ p.id = id ∧ p.collegeId = c ∧ p.archivedAt = none ∧
           p.moderationStatus = ModerationStatus.APPROVED ∧
           p.progressStatus ≠ ProgressStatus.COMPLETED ∧
           deptVisible dept p = true ∧
           (∀ dl, p.deadline = some dl → ¬ dl < now) ∧
           hasAnyApp db id sub = false))) ∧
    (∀ (db : DB) (sub : String) (roles : List String) (cid dept : Option String)
        (id : String) (msg : Option String) (now : Nat) (nid : String),
      ((applyToProject db sub roles cid dept id msg now nid).1 = 200 →
        (applyToProject db sub roles cid dept id msg now nid).2 =
          { db with applications := db.applications ++
            [{ id := nid, projectId := id, studentId := sub,
               status := ApplicationStatus.PENDING, message := msg }] }) ∧
      ((applyToProject db sub roles cid dept id msg now nid).1 ≠ 200 →
        (applyToProject db sub roles cid dept id msg now nid).2 = db)) ∧
    (∀ (db : DB) (sub : String) (roles : List String) (cid dept : Option String)
        (pid m nid : String) (p : Project),
      db.projects.find? (fun q => q.id == pid) = some p →
      roles.contains "STUDENT" = true →
      p.moderationStatus = ModerationStatus.APPROVED →
      p.progressStatus = ProgressStatus.OPEN →
      p.maxStudents ≤ acceptedCount db pid →
      applyToProjectStudent db sub roles cid dept pid m nid = (400, db)) := by
  refine ⟨?_, ?_, ?_⟩
  · intro db sub roles cid dept id msg now nid hN
    constructor
    · intro h200
      unfold applyToProject at h200
      split at h200
      · simp at h200
      · rename_i hrole
        split at h200
        · simp at h200
        · rename_i c
          split at h200
          · simp at h200
          · rename_i p hfind
            have hmem := List.mem_of_find?_eq_some hfind
            have hpred := List.find?_some hfind
            simp only [Bool.and_eq_true, beq_iff_eq] at hpred
            split at h200
            · simp at h200
            · rename_i hmod
              split at h200
              · simp at h200
              · rename_i hprog
                split at h200
                · simp at h200
                · rename_i hvis
                  split at h200
                  · simp at h200
                  · rename_i hdl
                    split at h200
                    · simp at h200
                    · rename_i hdup
                      refine ⟨by simpa using hrole, c, rfl, p, hmem,
                        hpred.1.1, hpred.1.2, by simpa using hpred.2,
                        by simpa using hmod, ?_, by simpa using hvis, ?_, ?_⟩
                      · intro hh
                        exact hprog (by simp [hh])
                      · intro dl hdl2 hlt
                        exact hdl (by rw [hdl2]; simpa using hlt)
                      · rw [Bool.not_eq_true] at hdup
                        exact hdup
    · rintro ⟨hrole, c, rfl, p, hmem, hid, hcol, harch, hmod, hprog, hvis, hdl, hdup⟩
      unfold applyToProject
      rw [if_neg (by rw [hrole]; simp)]
      have hfind : db.projects.find?
          (fun q => q.id == id && q.collegeId == c && q.archivedAt == none) = some p := by
        apply find?_of_nodup_ids hN hmem
        · simp [hid, hcol, harch]
        · intro q hq
          simp only [Bool.and_eq_true, beq_iff_eq] at hq
          rw [hq.1.1, hid]
      simp only [hfind]
      rw [if_neg (by rw [hmod]; simp)]
      rw [if_neg (by simp; intro hh; exact hprog hh)]
      rw [if_neg (by rw [hvis]; simp)]
      rw [if_neg (by
        rcases hdl2 : p.deadline with _ | dl
        · simp
        · simp only [decide_eq_true_eq]
          exact hdl dl hdl2)]
      rw [if_neg (by rw [hdup]; simp)]
  · intro db sub roles cid dept id msg now nid
    rcases applyToProject_code_cases db sub roles cid dept id msg now nid with
      ⟨h200, hfree, h⟩ | ⟨hne, hdb⟩
    · exact ⟨fun _ => h, fun hc => absurd h200 hc⟩
    · exact ⟨fun hc => absurd hc hne, fun _ => hdb⟩
  · intro db sub roles cid dept pid m nid p hfind hrole hmod hprog hge
    unfold applyToProjectStudent
    rw [if_neg (by rw [hrole]; simp)]
    simp only [hfind]
    rw [if_neg (by rw [hmod, hprog]; simp)]
    rw [if_pos (by simp [hge])]

/-- C8 witness: the exact characterization applied at a concrete store
where all amended preconditions hold — the apply succeeds. -/
theorem apply_preconditions_amended_witness :
    (applyToProject dbCS "S2" ["STUDENT"] (some "T1") (some "CS") "p1" none 0
      "w1").1 = 200 := by
  refine ((apply_preconditions_amended.1 dbCS "S2" ["STUDENT"] (some "T1")
    (some "CS") "p1" none 0 "w1" (by decide)).mpr ?_)
  refine ⟨rfl, "T1", rfl, pCS, ?_, rfl, rfl, rfl, rfl, ?_, ?_, ?_, ?_⟩
  · decide
  · decide
  · decide
  · intro dl h
    cases h
  · rfl

/-- A HEAD_ADMIN whose scope resolved without a collegeId. -/
def adminHeadNoCollege : AdminAuthPayload :=
  { sub := "h1", roles := ["HEAD_ADMIN"], collegeId := none }

/-- A HEAD_ADMIN of tenant T1. -/
def adminHeadT1 : AdminAuthPayload :=
  { sub := "h2", roles := ["HEAD_ADMIN"], collegeId := some "T1" }

/-- A store holding one project in each of two tenants. -/
def dbTwoTenants : DB :=
  { projects := [pCS, pForeign], applications := [], tasks := [] }

/-- C9 counterexample: a HEAD_ADMIN whose scope lacks a collegeId gets an
**unfiltered** admin project listing — rows of two different tenants are
returned (`getCollegeFilter` yields the undefined collegeId, and the
where-clause only ANDs the filter `if (collegeFilter)`), so not every
returned row lies in the admin's own tenant. -/
theorem admin_tenant_scope_cex :
    adminListProjects dbTwoTenants adminHeadNoCollege = [pCS, pForeign] ∧
    adminHeadNoCollege.roles = ["HEAD_ADMIN"] ∧
    adminHeadNoCollege.collegeId = none ∧
    pCS.collegeId ≠ pForeign.collegeId := by
  decide

/-- C9 amended: for a HEAD_ADMIN (without SUPER_ADMIN) whose scope
carries a collegeId, every row of the admin project and application
listings (and the stats aggregations, which share the same where-clause)
belongs to that tenant, and every single-entity admin action — details,
moderate, each bulk-moderate target, application status update — on an
entity of another tenant is explicitly denied with 403, never silently
filtered; a SUPER_ADMIN is subject to no tenant filter.  A HEAD_ADMIN
whose scope lacks a collegeId is, however, unfiltered (see the
counterexample). -/
theorem admin_tenant_scope_amended :
    (∀ (db : DB) (admin : AdminAuthPayload) (c : String),
      admin.roles.contains "HEAD_ADMIN" = true →
      admin.roles.contains "SUPER_ADMIN" = false →
      admin.collegeId = some c →
      (∀ p ∈ adminListProjects db admin, p.collegeId = c) ∧
      (∀ a ∈ adminListApplications db admin,
        ∃ p ∈ db.projects, p.id = a.projectId ∧ p.collegeId = c)) ∧
    (∀ (db : DB) (admin : AdminAuthPayload) (c : String) (id : String) (p : Project)
        (act : AdminAction) (mo : Option ModerationStatus)
        (po : Option ProgressStatus) (now : Nat) (ids : List String),
      admin.roles.contains "HEAD_ADMIN" = true →
      admin.roles.contains "SUPER_ADMIN" = false →
      admin.collegeId = some c →
      db.projects.find? (fun q => q.id == id) = some p →
      p.collegeId ≠ c →
      adminGetProjectDetails db admin id = (403, none) ∧
      moderateProject db admin id act mo po now = (403, db) ∧
      (p.id ∈ ids → bulkModerate db admin ids act now = (403, db))) ∧
    (∀ (db : DB) (admin : AdminAuthPayload) (c : String) (aid : String)
        (s : ApplicationStatus) (a : Application) (p2 : Project),
      admin.roles.contains "HEAD_ADMIN" = true →
      admin.roles.contains "SUPER_ADMIN" = false →
      admin.collegeId = some c →
      db.applications.find? (fun b => b.id == aid) = some a →
      db.projects.find? (fun q => q.id == a.projectId) = some p2 →
      p2.collegeId ≠ c →
      adminUpdateApplicationStatus db admin aid s = (403, db)) ∧
    (∀ (db : DB) (admin : AdminAuthPayload),
      admin.roles.contains "SUPER_ADMIN" = true →
      getCollegeFilter admin = none ∧ adminListProjects db admin = db.projects) := by
  have hcc : ∀ (admin : AdminAuthPayload) (c : String) (x : String),
      admin.roles.contains "HEAD_ADMIN" = true →
      admin.roles.contains "SUPER_ADMIN" = false →
      admin.collegeId = some c → x ≠ c →
      canAccessCollege admin (some x) = false := by
    intro admin c x hHead hSuper hc hne
    unfold canAccessCollege
    rw [if_neg (by rw [hSuper]; simp)]
    rw [if_pos hHead]
    rw [hc]
    simp only [beq_eq_false_iff_ne, ne_eq, Option.some.injEq]
    exact fun hh => hne hh.symm
  have hgf : ∀ (admin : AdminAuthPayload) (c : String),
      admin.roles.contains "HEAD_ADMIN" = true →
      admin.roles.contains "SUPER_ADMIN" = false →
      admin.collegeId = some c →
      getCollegeFilter admin = some c := by
    intro admin c hHead hSuper hc
    unfold getCollegeFilter
    rw [if_neg (by rw [hSuper]; simp)]
    rw [if_pos hHead]
    exact hc
  refine ⟨?_, ?_, ?_, ?_⟩
  · intro db admin c hHead hSuper hc
    constructor
    · intro p hp
      unfold adminListProjects at hp
      rw [List.mem_filter] at hp
      have := hp.2
      rw [hgf admin c hHead hSuper hc] at this
      unfold adminProjectsPred at this
      simpa using this
    · intro a ha
      unfold adminListApplications at ha
      rw [List.mem_filter] at ha
      have := ha.2
      rw [hgf admin c hHead hSuper hc] at this
      simp only [List.any_eq_true, Bool.and_eq_true, beq_iff_eq] at this
      rcases this with ⟨p, hpmem, hpid, hpcol⟩
      exact ⟨p, hpmem, hpid, hpcol⟩
  · intro db admin c id p act mo po now ids hHead hSuper hc hfind hne
    have hccp := hcc admin c p.collegeId hHead hSuper hc hne
    refine ⟨?_, ?_, ?_⟩
    · unfold adminGetProjectDetails
      simp only [hfind]
      rw [if_pos (by rw [hccp]; rfl)]
    · unfold moderateProject
      simp only [hfind]
      rw [if_pos (by rw [hccp]; rfl)]
    · intro hin
      unfold bulkModerate
      have hmem := List.mem_of_find?_eq_some hfind
      have hpf : p ∈ db.projects.filter (fun q => ids.contains q.id) := by
        rw [List.mem_filter]
        exact ⟨hmem, by simpa using hin⟩
      rw [if_neg (by
        intro hemp
        rw [List.isEmpty_iff] at hemp
        rw [hemp] at hpf
        cases hpf)]
      rw [if_pos (by
        rw [List.any_eq_true]
        exact ⟨p, hpf, by rw [hccp]; rfl⟩)]
  · intro db admin c aid s a p2 hHead hSuper hc hfa hfp hne
    have hccp := hcc admin c p2.collegeId hHead hSuper hc hne
    unfold adminUpdateApplicationStatus
    simp only [hfa, hfp]
    rw [if_pos (by rw [hccp]; rfl)]
  · intro db admin hSuper
    have hgfn : getCollegeFilter admin = none := by
      unfold getCollegeFilter
      rw [if_pos hSuper]
    refine ⟨hgfn, ?_⟩
    unfold adminListProjects
    rw [hgfn]
    apply List.filter_eq_self.mpr
    intro p hp
    rfl

/-- C9 witness: at a concrete two-tenant store, the tenant-T1 HEAD_ADMIN
listing returns only T1 rows and the cross-tenant details read is denied
with 403. -/
theorem admin_tenant_scope_amended_witness :
    pCS.collegeId = "T1" ∧
    adminGetProjectDetails dbTwoTenants adminHeadT1 "p2" = (403, none) := by
  constructor
  · exact (admin_tenant_scope_amended.1 dbTwoTenants adminHeadT1 "T1" rfl rfl
      rfl).1 pCS (by decide)
  · exact (admin_tenant_scope_amended.2.1 dbTwoTenants adminHeadT1 "T1" "p2"
      pForeign AdminAction.APPROVE none none 0 [] rfl rfl rfl rfl
      (by decide)).1

/-- An archived (soft-deleted) project. -/
def pArch : Project :=
  { id := "p9", collegeId := "T1", authorId := "F", title := "Archived project",
    departments := [], visibleToAllDepts := true, maxStudents := 2,
    deadline := none, moderationStatus := ModerationStatus.APPROVED,
    progressStatus := ProgressStatus.OPEN, archivedAt := some 5 }

/-- A task left on the archived project. -/
def tArch : Task :=
  { id := "t9", projectId := "p9", title := "leftover task",
    assignedToId := none, status := TaskStatus.TODO }

/-- The store holding the archived project and its task. -/
def dbArch : DB := { projects := [pArch], applications := [], tasks := [tArch] }

/-- C10 counterexample: the collaboration.routes task listing loads the
project with no `archivedAt` filter, so the author still reads the tasks
of an archived project with status 200 — not every member-gated route
that loads the project returns NotFound once `archivedAt` is set. -/
theorem archive_soft_delete_cex :
    getProjectTasksCollab dbArch "F" ["FACULTY"] "p9" = (200, [tArch]) ∧
    pArch.archivedAt ≠ none := by
  decide

/-- C10 amended: the owner's delete only sets `archivedAt` — the row is
kept with every other field and the applications and tasks tables
unchanged — and once every row with the project's id is archived, the
projects.routes.ts operations (single read, update, delete, apply, the
member-gated project-loading routes, the listing, and the task update)
all answer NotFound/unchanged; the student.routes apply and the
collaboration.routes handlers, which load the project without an
`archivedAt` check, do not (see the counterexample). -/
theorem archive_soft_delete_amended :
    (∀ (db : DB) (sub : String) (roles : List String) (cid : Option String)
        (id : String) (now : Nat) (p : Project),
      roles.contains "FACULTY" = true →
      db.projects.find?
        (fun q => q.id == id && matchOpt cid q.collegeId &&
          q.authorId == sub && q.archivedAt == none) = some p →
      deleteProject db sub roles cid id now =
        (200, updateProjectRow db id (fun q => { q with archivedAt := some now })) ∧
      (deleteProject db sub roles cid id now).2.applications = db.applications ∧
      (deleteProject db sub roles cid id now).2.tasks = db.tasks ∧
      (deleteProject db sub roles cid id now).2.projects.length =
        db.projects.length ∧
      (∀ q ∈ (deleteProject db sub roles cid id now).2.projects,
        ∃ r ∈ db.projects, q.id = r.id ∧ q.collegeId = r.collegeId ∧
          q.authorId = r.authorId ∧ q.title = r.title ∧
          q.departments = r.departments ∧ q.visibleToAllDepts = r.visibleToAllDepts ∧
          q.maxStudents = r.maxStudents ∧ q.deadline = r.deadline ∧
          q.moderationStatus = r.moderationStatus ∧
          q.progressStatus = r.progressStatus ∧
          (q.archivedAt = r.archivedAt ∨ (r.id = id ∧ q.archivedAt = some now)))) ∧
    (∀ (db : DB) (sub : String) (roles : List String) (cid dept : Option String)
        (id : String) (body : UpdateProjectBody) (now : Nat) (msg : Option String)
        (nid : String),
      (∀ q ∈ db.projects, q.id = id → q.archivedAt ≠ none) →
      getProjectById db roles cid dept id = none ∧
      ((updateProject db sub roles cid id body).1 ≠ 200 ∧
        (updateProject db sub roles cid id body).2 = db) ∧
      ((deleteProject db sub roles cid id now).1 ≠ 200 ∧
        (deleteProject db sub roles cid id now).2 = db) ∧
      ((applyToProject db sub roles cid dept id msg now nid).1 ≠ 200 ∧
        (applyToProject db sub roles cid dept id msg now nid).2 = db) ∧
      getProjectTasksPR db sub cid id = (404, []) ∧
      (∀ p2 ∈ listProjects db (roles.contains "STUDENT") cid dept, p2.id ≠ id) ∧
      (∀ (taskId : String) (bdy : UpdateTaskBody) (t : Task),
        db.tasks.find? (fun x => x.id == taskId) = some t → t.projectId = id →
        updateTaskPR db sub roles cid taskId bdy = (404, db))) := by
  constructor
  · intro db sub roles cid id now p hrole hfind
    have h1 : deleteProject db sub roles cid id now =
        (200, updateProjectRow db id (fun q => { q with archivedAt := some now })) := by
      unfold deleteProject
      rw [if_neg (by rw [hrole]; simp)]
      simp only [hfind]
    refine ⟨h1, by rw [h1]; rfl, by rw [h1]; rfl, ?_, ?_⟩
    · rw [h1]
      show (db.projects.map _).length = db.projects.length
      rw [List.length_map]
    · intro q hq
      rw [h1] at hq
      rcases List.mem_map.mp hq with ⟨r, hr, rfl⟩
      refine ⟨r, hr, ?_⟩
      by_cases hid : (r.id == id) = true
      · rw [if_pos hid]
        exact ⟨rfl, rfl, rfl, rfl, rfl, rfl, rfl, rfl, rfl, rfl,
          Or.inr ⟨by simpa using hid, rfl⟩⟩
      · rw [Bool.not_eq_true] at hid
        rw [hid]
        exact ⟨rfl, rfl, rfl, rfl, rfl, rfl, rfl, rfl, rfl, rfl, Or.inl rfl⟩
  · intro db sub roles cid dept id body now msg nid H
    have hnone1 : db.projects.find?
        (fun p => p.id == id && matchOpt cid p.collegeId &&
          p.archivedAt == none) = none := by
      rw [List.find?_eq_none]
      intro q hq hpred
      simp only [Bool.and_eq_true, beq_iff_eq] at hpred
      exact H q hq hpred.1.1 (by simpa using hpred.2)
    have hnone2 : db.projects.find?
        (fun p => p.id == id && matchOpt cid p.collegeId &&
          p.authorId == sub && p.archivedAt == none) = none := by
      rw [List.find?_eq_none]
      intro q hq hpred
      simp only [Bool.and_eq_true, beq_iff_eq] at hpred
      exact H q hq hpred.1.1.1 (by simpa using hpred.2)
    have hnone3 : ∀ c : String, db.projects.find?
        (fun p => p.id == id && p.collegeId == c && p.archivedAt == none) = none := by
      intro c
      rw [List.find?_eq_none]
      intro q hq hpred
      simp only [Bool.and_eq_true, beq_iff_eq] at hpred
      exact H q hq hpred.1.1 (by simpa using hpred.2)
    refine ⟨?_, ?_, ?_, ?_, ?_, ?_, ?_⟩
    · unfold getProjectById
      rw [hnone1]
    · unfold updateProject
      split
      · exact ⟨by simp, rfl⟩
      · rw [hnone2]
        exact ⟨by simp, rfl⟩
    · unfold deleteProject
      split
      · exact ⟨by simp, rfl⟩
      · rw [hnone2]
        exact ⟨by simp, rfl⟩
    · unfold applyToProject
      split
      · exact ⟨by simp, rfl⟩
      · split
        · exact ⟨by simp, rfl⟩
        · rename_i c
          rw [hnone3 c]
          exact ⟨by simp, rfl⟩
    · unfold getProjectTasksPR
      rw [hnone1]
    · intro p2 hp2
      unfold listProjects at hp2
      rw [List.mem_filter] at hp2
      have hpred := hp2.2
      unfold listProjectsPred at hpred
      simp only [Bool.and_eq_true, beq_iff_eq] at hpred
      intro hpid
      exact H p2 hp2.1 hpid (by simpa using hpred.1.1)
    · intro taskId bdy t ht htp
      unfold updateTaskPR
      simp only [ht]
      rcases hf : db.projects.find? (fun q => q.id == t.projectId) with _ | q0
      · simp only [hf]
      · simp only [hf]
        have hq0mem := List.mem_of_find?_eq_some hf
        have hq0id : q0.id = t.projectId := by simpa using List.find?_some hf
        have harch : q0.archivedAt ≠ none := H q0 hq0mem (by rw [hq0id, htp])
        rw [if_pos (by
          rw [Bool.or_eq_true]
          right
          rw [Option.isSome_iff_ne_none]
          exact harch)]

/-- C10 witness: the concrete delete of `pCS` archives it in place, and
the archived store answers NotFound on its single read. -/
theorem archive_soft_delete_amended_witness :
    deleteProject dbCS "F" ["FACULTY"] (some "T1") "p1" 7 =
      (200, updateProjectRow dbCS "p1" (fun q => { q with archivedAt := some 7 })) ∧
    getProjectById dbArch ["STUDENT"] (some "T1") none "p9" = none := by
  constructor
  · exact (archive_soft_delete_amended.1 dbCS "F" ["FACULTY"] (some "T1") "p1" 7
      pCS rfl rfl).1
  · exact (archive_soft_delete_amended.2 dbArch "F" ["STUDENT"] (some "T1") none
      "p9" { title := none, maxStudents := none } 0 none "x"
      (by intro q hq hid; simp [dbArch] at hq; rw [hq]; decide)).1

end Nexus
